import Mathlib

/-!
Shallow embedding of the XMODEM protocol engine from
`src/lib/xmodem/src/lib.rs`.

The transport is modelled as two byte streams: `input` holds the bytes the
session will read from its peer, `output` accumulates the bytes the session
has written to its peer.  Bytes are `Nat` values; 8-bit wrapping arithmetic
is made explicit with `% 256`.  Fallible operations return
`Except ErrKind α × XState`: the state is returned also on error, because
the Rust session object keeps its mutated state (and the transport keeps
bytes already written) when a method returns `Err`.

Progress-callback invocations are recorded in order in the `events` field.
-/

namespace Xmodem

/-- Protocol constant SOH (start of header), from the source. -/
def SOH : Nat := 0x01
/-- Protocol constant EOT (end of transmission), from the source. -/
def EOT : Nat := 0x04
/-- Protocol constant ACK (acknowledge), from the source. -/
def ACK : Nat := 0x06
/-- Protocol constant NAK (negative acknowledge), from the source. -/
def NAK : Nat := 0x15
/-- Protocol constant CAN (cancel), from the source. -/
def CAN : Nat := 0x18

/-- The `io::ErrorKind` values the engine produces. -/
inductive ErrKind where
  | unexpectedEof
  | interrupted
  | invalidData
  | connectionAborted
  | brokenPipe
deriving DecidableEq, Repr

/-- Modelled from the spec: the `Progress` variant set of the missing
`progress.rs` module (`Waiting`, `Started`, `Packet(n)`); `lib.rs` itself
references exactly these three constructors. -/
inductive Progress where
  | Waiting
  | Started
  | Packet (n : Nat)
deriving DecidableEq, Repr

/-- The session state of `Xmodem<R>` plus its transport: `packet` and
`started` are the struct fields; `input` are the bytes still to be read
from the peer, `output` the bytes written to the peer so far, and `events`
the progress-callback invocations so far. -/
structure XState where
  packet : Nat
  started : Bool
  input : List Nat
  output : List Nat
  events : List Progress
deriving DecidableEq, Repr

/-- Record one progress-callback invocation. -/
def pushEvent (e : Progress) (s : XState) : XState :=
  { s with events := s.events ++ [e] }

/-- Bitwise NOT of a `u8`: `!b = 255 - b` for `b < 256`. -/
def not8 (b : Nat) : Nat := 255 - b % 256

/-- `get_checksum`: fold of `wrapping_add` over the buffer, from the source. -/
def get_checksum (buf : List Nat) : Nat :=
  buf.foldl (fun a b => (a + b) % 256) 0

/-- `Xmodem::read_byte`: read one byte from the transport; when
`abortOnCan` is set and the byte is CAN, fail with `ConnectionAborted`
(the byte is consumed either way). An exhausted stream is `UnexpectedEof`
(the error `read_exact` reports). -/
def read_byte (abortOnCan : Bool) (s : XState) : Except ErrKind Nat × XState :=
  match s.input with
  | [] => (Except.error ErrKind.unexpectedEof, s)
  | b :: rest =>
      if abortOnCan ∧ b = CAN then
        (Except.error ErrKind.connectionAborted, { s with input := rest })
      else
        (Except.ok b, { s with input := rest })

/-- `Xmodem::write_byte`: write one byte to the transport (the transport's
`write_all`/`flush` are modelled as always succeeding). -/
def write_byte (b : Nat) (s : XState) : XState :=
  { s with output := s.output ++ [b] }

/-- `read_exact(&mut buf[..n])`: read exactly `n` bytes or fail with
`UnexpectedEof`. -/
def read_exact (n : Nat) (s : XState) : Except ErrKind (List Nat) × XState :=
  if n ≤ s.input.length then
    (Except.ok (s.input.take n), { s with input := s.input.drop n })
  else
    (Except.error ErrKind.unexpectedEof, { s with input := [] })

/-- `Xmodem::expect_byte`: read one byte; the expected byte is returned,
CAN is `ConnectionAborted`, anything else is `InvalidData`. -/
def expect_byte (byte : Nat) (s : XState) : Except ErrKind Nat × XState :=
  match read_byte false s with
  | (Except.error e, s1) => (Except.error e, s1)
  | (Except.ok received, s1) =>
      if received = byte then (Except.ok received, s1)
      else if received = CAN then (Except.error ErrKind.connectionAborted, s1)
      else (Except.error ErrKind.invalidData, s1)

/-- `Xmodem::expect_byte_or_cancel`: like `expect_byte` but first sends CAN
on mismatch (present in the source, unused by the transfer loops). -/
def expect_byte_or_cancel (byte : Nat) (s : XState) : Except ErrKind Nat × XState :=
  match read_byte false s with
  | (Except.error e, s1) => (Except.error e, s1)
  | (Except.ok received, s1) =>
      if received = byte then (Except.ok received, s1)
      else
        let s2 := write_byte CAN s1
        if received = CAN then (Except.error ErrKind.connectionAborted, s2)
        else (Except.error ErrKind.invalidData, s2)

/-- `Xmodem::read_packet`: returns the size the Rust function returns
(0 for the completed EOT handshake, 128 for a stored packet) together with
the 128 data bytes stored into the caller's buffer. `bufLen` is the length
of the caller's buffer (only its `< 128` check matters). -/
def read_packet (bufLen : Nat) (s : XState) : Except ErrKind (Nat × List Nat) × XState :=
  if bufLen < 128 then (Except.error ErrKind.unexpectedEof, s) else
  match read_byte false s with
  | (Except.error e, s1) => (Except.error e, s1)
  | (Except.ok byte, s1) =>
    if byte = CAN then (Except.error ErrKind.connectionAborted, s1)
    else if byte = SOH then
      let s2 := if s1.started then s1
                else pushEvent Progress.Started { s1 with started := true }
      match read_byte false s2 with
      | (Except.error e, s3) => (Except.error e, s3)
      | (Except.ok packet_num, s3) =>
        match read_byte false s3 with
        | (Except.error e, s4) => (Except.error e, s4)
        | (Except.ok packet_num_neg, s4) =>
          if packet_num ≠ s4.packet ∨ packet_num_neg ≠ not8 s4.packet then
            (Except.error ErrKind.invalidData, write_byte NAK s4)
          else
            match read_exact 128 s4 with
            | (Except.error e, s5) => (Except.error e, s5)
            | (Except.ok data, s5) =>
              match read_byte false s5 with
              | (Except.error e, s6) => (Except.error e, s6)
              | (Except.ok checksum, s6) =>
                if get_checksum data ≠ checksum then
                  (Except.error ErrKind.interrupted, write_byte NAK s6)
                else
                  let s7 := pushEvent (Progress.Packet packet_num) (write_byte ACK s6)
                  (Except.ok (128, data), { s7 with packet := (s7.packet + 1) % 256 })
    else if byte = EOT then
      let s2 := write_byte NAK s1
      match read_byte false s2 with
      | (Except.error e, s3) => (Except.error e, s3)
      | (Except.ok b2, s3) =>
        if b2 ≠ EOT then (Except.error ErrKind.invalidData, s3)
        else (Except.ok (0, []), write_byte ACK s3)
    else
      match read_byte false s1 with
      | (Except.error e, s2) => (Except.error e, s2)
      | (Except.ok nb, s2) =>
        if nb = CAN then (Except.error ErrKind.connectionAborted, s2)
        else (Except.error ErrKind.invalidData, write_byte NAK s2)

/-- `Xmodem::write_packet`: send one 128-byte data packet, or run the
EOT/NAK/EOT/ACK termination handshake when `buf` is empty; performs the
initial NAK handshake first when the session has not started. -/
def write_packet (buf : List Nat) (s : XState) : Except ErrKind Nat × XState :=
  if buf.length ≠ 128 ∧ buf ≠ [] then (Except.error ErrKind.unexpectedEof, s)
  else
    let hs : Except ErrKind Unit × XState :=
      if s.started then (Except.ok (), s)
      else
        match expect_byte NAK (pushEvent Progress.Waiting s) with
        | (Except.error e, t) => (Except.error e, t)
        | (Except.ok _, t) =>
            (Except.ok (), pushEvent Progress.Started { t with started := true })
    match hs with
    | (Except.error e, s1) => (Except.error e, s1)
    | (Except.ok _, s1) =>
      if buf = [] then
        match expect_byte NAK (write_byte EOT s1) with
        | (Except.error e, s2) => (Except.error e, s2)
        | (Except.ok _, s2) =>
          match expect_byte ACK (write_byte EOT s2) with
          | (Except.error e, s3) => (Except.error e, s3)
          | (Except.ok _, s3) => (Except.ok 0, s3)
      else
        let s2 := write_byte SOH s1
        let s3 := write_byte s2.packet s2
        let s4 := write_byte (not8 s3.packet) s3
        let s5 := { s4 with output := s4.output ++ buf }
        let s6 := write_byte (get_checksum buf) s5
        match read_byte false s6 with
        | (Except.error e, s7) => (Except.error e, s7)
        | (Except.ok r, s7) =>
          if r = ACK then
            let s8 := { s7 with packet := (s7.packet + 1) % 256 }
            (Except.ok 128, pushEvent (Progress.Packet s8.packet) s8)
          else if r = NAK then (Except.error ErrKind.interrupted, s7)
          else if r = CAN then (Except.error ErrKind.connectionAborted, s7)
          else (Except.error ErrKind.invalidData, s7)

/-- The inner `for _ in 0..10` loop of `receive_with_progress`: retry
`read_packet` on `Interrupted`, propagate any other error, and report
`BrokenPipe` when the attempts are exhausted. -/
def rxTries : Nat → XState → Except ErrKind (Nat × List Nat) × XState
  | 0, s => (Except.error ErrKind.brokenPipe, s)
  | k+1, s =>
    match read_packet 128 s with
    | (Except.error ErrKind.interrupted, s1) => rxTries k s1
    | (Except.error e, s1) => (Except.error e, s1)
    | (Except.ok r, s1) => (Except.ok r, s1)

/-- The `'next_packet` loop of `receive_with_progress`; `fuel` bounds the
number of outer iterations (the Rust loop is unbounded), `none` means the
fuel ran out.  Returns the result, the final state, and the sink. -/
def rxLoop : Nat → List Nat → Nat → XState →
    Option (Except ErrKind Nat × XState × List Nat)
  | 0, _, _, _ => none
  | fuel+1, sink, received, s =>
    match rxTries 10 s with
    | (Except.error e, s1) => some (Except.error e, s1, sink)
    | (Except.ok (0, _), s1) => some (Except.ok received, s1, sink)
    | (Except.ok (n, d), s1) => rxLoop fuel (sink ++ d) (received + n) s1

/-- `Xmodem::receive_with_progress`: fresh session (`packet = 1`,
`started = false`), initial NAK, then the packet loop. -/
def receive_with_progress (fuel : Nat) (input : List Nat) :
    Option (Except ErrKind Nat × XState × List Nat) :=
  rxLoop fuel [] 0
    (write_byte NAK { packet := 1, started := false, input := input,
                      output := [], events := [] })

/-- The inner `for _ in 0..10` loop of `transmit_with_progress`. -/
def txTries : Nat → List Nat → XState → Except ErrKind Nat × XState
  | 0, _, s => (Except.error ErrKind.brokenPipe, s)
  | k+1, buf, s =>
    match write_packet buf s with
    | (Except.error ErrKind.interrupted, s1) => txTries k buf s1
    | (Except.error e, s1) => (Except.error e, s1)
    | (Except.ok n, s1) => (Except.ok n, s1)

/-- The `'next_packet` loop of `transmit_with_progress`.  `read_max` (whose
`read_ext.rs` is not in the sources) is modelled from the spec: "pull up to
128 bytes from the data source", i.e. `data.take 128`; the source then
zeroes `packet[n..]`, giving `data.take 128 ++ replicate (128 - n) 0`. -/
def txLoop : Nat → List Nat → Nat → XState → Option (Except ErrKind Nat × XState)
  | 0, _, _, _ => none
  | fuel+1, data, written, s =>
    let n := min 128 data.length
    if n = 0 then
      match write_packet [] s with
      | (Except.error e, s1) => some (Except.error e, s1)
      | (Except.ok _, s1) => some (Except.ok written, s1)
    else
      let packet := data.take 128 ++ List.replicate (128 - n) 0
      match txTries 10 packet s with
      | (Except.error e, s1) => some (Except.error e, s1)
      | (Except.ok _, s1) => txLoop fuel (data.drop 128) (written + n) s1

/-- `Xmodem::transmit_with_progress`: fresh session, then the packet loop;
`input` holds the peer's response bytes. -/
def transmit_with_progress (fuel : Nat) (data : List Nat) (input : List Nat) :
    Option (Except ErrKind Nat × XState) :=
  txLoop fuel data 0 { packet := 1, started := false, input := input,
                       output := [], events := [] }

end Xmodem

namespace Xmodem

instance instDecEqExcept {ε α : Type} [DecidableEq ε] [DecidableEq α] :
    DecidableEq (Except ε α) := fun x y =>
  match x, y with
  | Except.error a, Except.error b =>
      if h : a = b then Decidable.isTrue (by simp [h]) else Decidable.isFalse (by simp [h])
  | Except.error _, Except.ok _ => Decidable.isFalse (by simp)
  | Except.ok _, Except.error _ => Decidable.isFalse (by simp)
  | Except.ok a, Except.ok b =>
      if h : a = b then Decidable.isTrue (by simp [h]) else Decidable.isFalse (by simp [h])

/-! ### Wire-level closed forms used to state the theorems -/

/-- A source chunk zero-padded to 128 bytes, as the transmit loop builds it. -/
def padChunk (c : List Nat) : List Nat := c ++ List.replicate (128 - c.length) 0

/-- The wire bytes of one data packet carrying chunk `c` with sequence
byte `seq`. -/
def frameOf (seq : Nat) (c : List Nat) : List Nat :=
  SOH :: seq :: not8 seq :: (padChunk c ++ [get_checksum (padChunk c)])

/-- The payload split into 128-byte chunks (the last one possibly short). -/
def chunks : List Nat → List (List Nat)
  | [] => []
  | a :: l => ((a :: l).take 128) :: chunks ((a :: l).drop 128)
termination_by l => l.length
decreasing_by simp; omega

/-- The data frames for the chunk list `cs` starting at sequence `seq`. -/
def framesBody (seq : Nat) : List (List Nat) → List Nat
  | [] => []
  | c :: cs => frameOf seq c ++ framesBody ((seq + 1) % 256) cs

/-- Number of data packets a payload needs. -/
def numChunks (P : List Nat) : Nat := (P.length + 127) / 128

/-- Length of the zero-padding the last packet adds. -/
def padLen (P : List Nat) : Nat := (128 - P.length % 128) % 128

/-- Progress events the transmit loop emits for `k` acknowledged packets
when the counter starts at `seq` (the source reports the counter after
incrementing it). -/
def txPkEvents (seq : Nat) : Nat → List Progress
  | 0 => []
  | k + 1 => Progress.Packet ((seq + 1) % 256) :: txPkEvents ((seq + 1) % 256) k

/-- Progress events the receive loop emits for chunk list `cs` when the
counter starts at `seq` and the `started` flag is `st`. -/
def rxEvents (st : Bool) (seq : Nat) : List (List Nat) → List Progress
  | [] => []
  | _ :: cs =>
      (if st then [] else [Progress.Started]) ++
        Progress.Packet seq :: rxEvents true ((seq + 1) % 256) cs

/-! ### Basic facts -/

theorem padChunk_length {c : List Nat} (h : c.length ≤ 128) :
    (padChunk c).length = 128 := by
  simp [padChunk]; omega

theorem read_byte_cons (b : Nat) (p : Nat) (st : Bool) (rest out : List Nat)
    (ev : List Progress) :
    read_byte false ⟨p, st, b :: rest, out, ev⟩ = (Except.ok b, ⟨p, st, rest, out, ev⟩) := by
  simp [read_byte]

theorem read_exact_eq (n : Nat) (d rest : List Nat) (p : Nat) (st : Bool)
    (out : List Nat) (ev : List Progress) (hd : d.length = n) :
    read_exact n ⟨p, st, d ++ rest, out, ev⟩ = (Except.ok d, ⟨p, st, rest, out, ev⟩) := by
  simp [read_exact, List.take_left' hd, List.drop_left' hd]
  omega

end Xmodem

namespace Xmodem

/-! ### Frame-level behaviour of `read_packet` -/

theorem read_packet_good (p : Nat) (st : Bool) (c rest out : List Nat)
    (ev : List Progress) (hc : c.length ≤ 128) :
    read_packet 128 ⟨p, st, frameOf p c ++ rest, out, ev⟩ =
      (Except.ok (128, padChunk c),
       ⟨(p + 1) % 256, true, rest, out ++ [ACK],
        ev ++ (if st then [Progress.Packet p]
               else [Progress.Started, Progress.Packet p])⟩) := by
  have h128 := padChunk_length hc
  cases st <;>
    simp [read_packet, frameOf, read_byte_cons, read_exact_eq, h128,
      pushEvent, write_byte, SOH, CAN, EOT]

theorem read_packet_eot (p : Nat) (st : Bool) (rest out : List Nat)
    (ev : List Progress) :
    read_packet 128 ⟨p, st, EOT :: EOT :: rest, out, ev⟩ =
      (Except.ok (0, []), ⟨p, st, rest, out ++ [NAK, ACK], ev⟩) := by
  simp [read_packet, read_byte_cons, write_byte, SOH, CAN, EOT]

theorem read_packet_can (p : Nat) (st : Bool) (rest out : List Nat)
    (ev : List Progress) :
    read_packet 128 ⟨p, st, CAN :: rest, out, ev⟩ =
      (Except.error ErrKind.connectionAborted, ⟨p, st, rest, out, ev⟩) := by
  simp [read_packet, read_byte_cons, CAN]

theorem read_packet_badseq (p : Nat) (st : Bool) (a b : Nat)
    (rest out : List Nat) (ev : List Progress) (h : a ≠ p ∨ b ≠ not8 p) :
    read_packet 128 ⟨p, st, SOH :: a :: b :: rest, out, ev⟩ =
      (Except.error ErrKind.invalidData,
       ⟨p, true, rest, out ++ [NAK],
        ev ++ (if st then [] else [Progress.Started])⟩) := by
  cases st <;>
    simp [read_packet, read_byte_cons, pushEvent, write_byte, SOH, CAN, EOT] <;>
    (intro ha hb; rcases h with h | h
     · exact absurd ha h
     · exact absurd hb h)

theorem read_packet_badck (p : Nat) (st : Bool) (d : List Nat) (ck : Nat)
    (rest out : List Nat) (ev : List Progress) (hd : d.length = 128)
    (h : get_checksum d ≠ ck) :
    read_packet 128 ⟨p, st, SOH :: p :: not8 p :: (d ++ ck :: rest), out, ev⟩ =
      (Except.error ErrKind.interrupted,
       ⟨p, true, rest, out ++ [NAK],
        ev ++ (if st then [] else [Progress.Started])⟩) := by
  cases st <;>
    simp [read_packet, read_byte_cons, read_exact_eq, hd, pushEvent,
      write_byte, SOH, CAN, EOT] <;>
    simp [h]

theorem read_packet_garbage_can (p : Nat) (st : Bool) (g : Nat)
    (rest out : List Nat) (ev : List Progress)
    (h1 : g ≠ SOH) (h2 : g ≠ EOT) (h3 : g ≠ CAN) :
    read_packet 128 ⟨p, st, g :: CAN :: rest, out, ev⟩ =
      (Except.error ErrKind.connectionAborted, ⟨p, st, rest, out, ev⟩) := by
  have e1 : g ≠ 1 := by simpa [SOH] using h1
  have e2 : g ≠ 4 := by simpa [EOT] using h2
  have e3 : g ≠ 24 := by simpa [CAN] using h3
  simp [read_packet, read_byte_cons, write_byte, e1, e2, e3, SOH, EOT, CAN]

theorem read_packet_garbage_other (p : Nat) (st : Bool) (g nb : Nat)
    (rest out : List Nat) (ev : List Progress)
    (h1 : g ≠ SOH) (h2 : g ≠ EOT) (h3 : g ≠ CAN) (h4 : nb ≠ CAN) :
    read_packet 128 ⟨p, st, g :: nb :: rest, out, ev⟩ =
      (Except.error ErrKind.invalidData, ⟨p, st, rest, out ++ [NAK], ev⟩) := by
  have e1 : g ≠ 1 := by simpa [SOH] using h1
  have e2 : g ≠ 4 := by simpa [EOT] using h2
  have e3 : g ≠ 24 := by simpa [CAN] using h3
  have e4 : nb ≠ 24 := by simpa [CAN] using h4
  simp [read_packet, read_byte_cons, write_byte, e1, e2, e3, e4, SOH, EOT, CAN]

theorem read_packet_eot_bad (p : Nat) (st : Bool) (b : Nat)
    (rest out : List Nat) (ev : List Progress) (h : b ≠ EOT) :
    read_packet 128 ⟨p, st, EOT :: b :: rest, out, ev⟩ =
      (Except.error ErrKind.invalidData, ⟨p, st, rest, out ++ [NAK], ev⟩) := by
  have e : b ≠ 4 := by simpa [EOT] using h
  simp [read_packet, read_byte_cons, write_byte, e, SOH, CAN, EOT]

/-! ### Frame-level behaviour of `write_packet` -/

theorem write_packet_data (p : Nat) (st : Bool) (buf rest out : List Nat)
    (ev : List Progress) (hb : buf.length = 128) :
    write_packet buf ⟨p, st, (if st then [] else [NAK]) ++ ACK :: rest, out, ev⟩ =
      (Except.ok 128,
       ⟨(p + 1) % 256, true, rest,
        out ++ SOH :: p :: not8 p :: (buf ++ [get_checksum buf]),
        ev ++ (if st then [] else [Progress.Waiting, Progress.Started]) ++
          [Progress.Packet ((p + 1) % 256)]⟩) := by
  have hne : buf ≠ [] := by intro h; rw [h] at hb; simp at hb
  cases st <;>
    simp [write_packet, expect_byte, read_byte_cons, pushEvent, write_byte,
      hb, hne, ACK, NAK, CAN]

theorem write_packet_eot (p : Nat) (st : Bool) (rest out : List Nat)
    (ev : List Progress) :
    write_packet [] ⟨p, st, (if st then [] else [NAK]) ++ NAK :: ACK :: rest, out, ev⟩ =
      (Except.ok 0,
       ⟨p, true, rest, out ++ [EOT, EOT],
        ev ++ (if st then [] else [Progress.Waiting, Progress.Started])⟩) := by
  cases st <;>
    simp [write_packet, expect_byte, read_byte_cons, pushEvent, write_byte,
      ACK, NAK, CAN]

theorem write_packet_nak (p : Nat) (buf rest out : List Nat)
    (ev : List Progress) (hb : buf.length = 128) :
    write_packet buf ⟨p, true, NAK :: rest, out, ev⟩ =
      (Except.error ErrKind.interrupted,
       ⟨p, true, rest,
        out ++ SOH :: p :: not8 p :: (buf ++ [get_checksum buf]), ev⟩) := by
  have hne : buf ≠ [] := by intro h; rw [h] at hb; simp at hb
  simp [write_packet, expect_byte, read_byte_cons, pushEvent, write_byte,
    hb, hne, ACK, NAK, CAN]

theorem write_packet_can_resp (p : Nat) (buf rest out : List Nat)
    (ev : List Progress) (hb : buf.length = 128) :
    write_packet buf ⟨p, true, CAN :: rest, out, ev⟩ =
      (Except.error ErrKind.connectionAborted,
       ⟨p, true, rest,
        out ++ SOH :: p :: not8 p :: (buf ++ [get_checksum buf]), ev⟩) := by
  have hne : buf ≠ [] := by intro h; rw [h] at hb; simp at hb
  simp [write_packet, expect_byte, read_byte_cons, pushEvent, write_byte,
    hb, hne, ACK, NAK, CAN]

theorem write_packet_bad_resp (p : Nat) (r : Nat) (buf rest out : List Nat)
    (ev : List Progress) (hb : buf.length = 128)
    (h1 : r ≠ ACK) (h2 : r ≠ NAK) (h3 : r ≠ CAN) :
    write_packet buf ⟨p, true, r :: rest, out, ev⟩ =
      (Except.error ErrKind.invalidData,
       ⟨p, true, rest,
        out ++ SOH :: p :: not8 p :: (buf ++ [get_checksum buf]), ev⟩) := by
  have hne : buf ≠ [] := by intro h; rw [h] at hb; simp at hb
  simp [write_packet, expect_byte, read_byte_cons, pushEvent, write_byte,
    hb, hne, h1, h2, h3]

theorem write_packet_hs_can (p : Nat) (b : Nat) (buf rest out : List Nat)
    (ev : List Progress) (hb : buf.length = 128 ∨ buf = []) (h : b ≠ NAK) :
    write_packet buf ⟨p, false, b :: rest, out, ev⟩ =
      ((if b = CAN then Except.error ErrKind.connectionAborted
        else Except.error ErrKind.invalidData),
       ⟨p, false, rest, out, ev ++ [Progress.Waiting]⟩) := by
  have e : b ≠ 21 := by simpa [NAK] using h
  rcases hb with hb | hb
  · have hne : buf ≠ [] := by intro hx; rw [hx] at hb; simp at hb
    by_cases hcan : b = 24 <;>
      simp [write_packet, expect_byte, read_byte_cons, pushEvent, write_byte,
        hb, hne, e, hcan, NAK, CAN]
  · subst hb
    by_cases hcan : b = 24 <;>
      simp [write_packet, expect_byte, read_byte_cons, pushEvent, write_byte,
        e, hcan, NAK, CAN]

end Xmodem

namespace Xmodem

/-! ### Chunking facts -/

theorem chunks_nil : chunks [] = [] := by rw [chunks]

theorem chunks_cons (a : Nat) (l : List Nat) :
    chunks (a :: l) = ((a :: l).take 128) :: chunks ((a :: l).drop 128) := by
  rw [chunks]

theorem numChunks_nil : numChunks [] = 0 := by simp [numChunks]

theorem numChunks_pos_step (P : List Nat) (h : P ≠ []) :
    numChunks P = numChunks (P.drop 128) + 1 := by
  have : 1 ≤ P.length := List.length_pos.mpr h
  simp only [numChunks, List.length_drop]
  omega

theorem chunks_length_aux (n : Nat) :
    ∀ P : List Nat, P.length ≤ n → (chunks P).length = numChunks P := by
  induction n with
  | zero =>
      intro P hP
      have : P = [] := List.eq_nil_of_length_eq_zero (by omega)
      subst this; simp [chunks_nil, numChunks_nil]
  | succ n ih =>
      intro P hP
      match P with
      | [] => simp [chunks_nil, numChunks_nil]
      | a :: l =>
          rw [chunks_cons, numChunks_pos_step (a :: l) (by simp), List.length_cons]
          rw [ih _ (by simp only [List.length_drop, List.length_cons] at hP ⊢; omega)]

theorem chunks_length (P : List Nat) : (chunks P).length = numChunks P :=
  chunks_length_aux P.length P le_rfl

theorem chunks_short_len_aux (n : Nat) :
    ∀ P : List Nat, P.length ≤ n → ∀ c ∈ chunks P, 0 < c.length ∧ c.length ≤ 128 := by
  induction n with
  | zero =>
      intro P hP
      have : P = [] := List.eq_nil_of_length_eq_zero (by omega)
      subst this; simp [chunks_nil]
  | succ n ih =>
      intro P hP c hc
      match P with
      | [] => simp [chunks_nil] at hc
      | a :: l =>
          rw [chunks_cons] at hc
          rcases List.mem_cons.mp hc with h | h
          · subst h
            simp only [List.length_take, List.length_cons]
            omega
          · exact ih _ (by simp only [List.length_drop, List.length_cons] at hP ⊢; omega) c h

theorem chunks_short_len (P : List Nat) : ∀ c ∈ chunks P, c.length ≤ 128 :=
  fun c hc => (chunks_short_len_aux P.length P le_rfl c hc).2

theorem chunks_join_pad_aux (n : Nat) :
    ∀ P : List Nat, P.length ≤ n →
      ((chunks P).map padChunk).flatten = P ++ List.replicate (padLen P) 0 := by
  induction n with
  | zero =>
      intro P hP
      have : P = [] := List.eq_nil_of_length_eq_zero (by omega)
      subst this; simp [chunks_nil, padLen]
  | succ n ih =>
      intro P hP
      match P with
      | [] => simp [chunks_nil, padLen]
      | a :: l =>
          rw [chunks_cons]
          simp only [List.map_cons, List.flatten_cons]
          by_cases h128 : (a :: l).length ≤ 128
          · rw [List.drop_eq_nil_of_le h128, chunks_nil]
            simp only [List.map_nil, List.flatten_nil, List.append_nil]
            rw [List.take_of_length_le h128]
            unfold padChunk padLen
            congr 2
            simp only [List.length_cons] at h128 ⊢
            omega
          · push_neg at h128
            rw [ih _ (by simp only [List.length_drop, List.length_cons] at hP ⊢; omega)]
            have htl : ((a :: l).take 128).length = 128 := by
              simp only [List.length_take, List.length_cons]
              simp only [List.length_cons] at h128
              omega
            have hpad : padChunk ((a :: l).take 128) = (a :: l).take 128 := by
              unfold padChunk; rw [htl]; simp
            rw [hpad, ← List.append_assoc, List.take_append_drop]
            congr 2
            unfold padLen
            simp only [List.length_drop, List.length_cons]
            simp only [List.length_cons] at h128
            omega

theorem chunks_join_pad (P : List Nat) :
    ((chunks P).map padChunk).flatten = P ++ List.replicate (padLen P) 0 :=
  chunks_join_pad_aux P.length P le_rfl

end Xmodem

namespace Xmodem

/-- Closed form of `txPkEvents`: the `n`-th acknowledged packet (0-based
`i`) is reported as `Packet ((seq + i + 1) % 256)`. -/
theorem txPkEvents_map (k : Nat) :
    ∀ seq : Nat, seq < 256 →
      txPkEvents seq k =
        (List.range k).map (fun i => Progress.Packet ((seq + i + 1) % 256)) := by
  induction k with
  | zero => intro seq _; simp [txPkEvents]
  | succ k ih =>
      intro seq hseq
      rw [txPkEvents, ih ((seq + 1) % 256) (Nat.mod_lt _ (by omega)),
        List.range_succ_eq_map]
      simp only [List.map_cons, List.map_map, Function.comp_def, Nat.add_zero,
        Nat.succ_eq_add_one]
      congr 1
      apply List.map_congr_left
      intro i _
      congr 1
      omega

/-! ### `write_packet` specialisations -/

theorem write_packet_data_started (p : Nat) (buf rest out : List Nat)
    (ev : List Progress) (hb : buf.length = 128) :
    write_packet buf ⟨p, true, ACK :: rest, out, ev⟩ =
      (Except.ok 128,
       ⟨(p + 1) % 256, true, rest,
        out ++ SOH :: p :: not8 p :: (buf ++ [get_checksum buf]),
        ev ++ [Progress.Packet ((p + 1) % 256)]⟩) := by
  simpa using write_packet_data p true buf rest out ev hb

theorem write_packet_data_fresh (p : Nat) (buf rest out : List Nat)
    (ev : List Progress) (hb : buf.length = 128) :
    write_packet buf ⟨p, false, NAK :: ACK :: rest, out, ev⟩ =
      (Except.ok 128,
       ⟨(p + 1) % 256, true, rest,
        out ++ SOH :: p :: not8 p :: (buf ++ [get_checksum buf]),
        ev ++ [Progress.Waiting, Progress.Started,
               Progress.Packet ((p + 1) % 256)]⟩) := by
  simpa using write_packet_data p false buf rest out ev hb

theorem write_packet_eot_started (p : Nat) (rest out : List Nat)
    (ev : List Progress) :
    write_packet [] ⟨p, true, NAK :: ACK :: rest, out, ev⟩ =
      (Except.ok 0, ⟨p, true, rest, out ++ [EOT, EOT], ev⟩) := by
  simpa using write_packet_eot p true rest out ev

theorem write_packet_eot_fresh (p : Nat) (rest out : List Nat)
    (ev : List Progress) :
    write_packet [] ⟨p, false, NAK :: NAK :: ACK :: rest, out, ev⟩ =
      (Except.ok 0,
       ⟨p, true, rest, out ++ [EOT, EOT],
        ev ++ [Progress.Waiting, Progress.Started]⟩) := by
  simpa using write_packet_eot p false rest out ev

/-! ### Happy-path run of the transmit loop (session already started) -/

theorem txLoop_run (fuel : Nat) :
    ∀ (data : List Nat) (written p : Nat) (rest out : List Nat)
      (ev : List Progress),
      numChunks data + 1 ≤ fuel → p < 256 →
      txLoop fuel data written
          ⟨p, true, List.replicate (numChunks data) ACK ++ NAK :: ACK :: rest,
           out, ev⟩ =
        some (Except.ok (written + data.length),
          ⟨(p + numChunks data) % 256, true, rest,
           out ++ framesBody p (chunks data) ++ [EOT, EOT],
           ev ++ txPkEvents p (numChunks data)⟩) := by
  induction fuel with
  | zero => intro data written p rest out ev hf hp; omega
  | succ fuel ih =>
      intro data written p rest out ev hf hp
      match data with
      | [] =>
          rw [numChunks_nil] at hf ⊢
          rw [chunks_nil]
          simp [txLoop, write_packet_eot_started, framesBody, txPkEvents,
            Nat.mod_eq_of_lt hp]
      | a :: l =>
          have hstep : numChunks (a :: l) = numChunks ((a :: l).drop 128) + 1 :=
            numChunks_pos_step _ (by simp)
          rw [hstep, List.replicate_succ, List.cons_append, chunks_cons]
          have hn : ¬ (min 128 (a :: l).length = 0) := by simp
          have hcl : ((a :: l).take 128).length ≤ 128 := by
            simp [List.length_take]
          have hbuf : (a :: l).take 128 ++
              List.replicate (128 - min 128 (a :: l).length) 0
              = padChunk ((a :: l).take 128) := by
            unfold padChunk; rw [List.length_take]
          have hb128 := padChunk_length hcl
          simp only [txLoop]
          rw [if_neg hn, hbuf]
          simp only [txTries, write_packet_data_started, hb128]
          have hf' : numChunks ((a :: l).drop 128) + 1 ≤ fuel := by omega
          have hp' : (p + 1) % 256 < 256 := Nat.mod_lt _ (by omega)
          rw [ih ((a :: l).drop 128) (written + min 128 (a :: l).length)
            ((p + 1) % 256) rest
            (out ++ SOH :: p :: not8 p ::
              (padChunk ((a :: l).take 128) ++
                [get_checksum (padChunk ((a :: l).take 128))]))
            (ev ++ [Progress.Packet ((p + 1) % 256)]) hf' hp']
          simp only [Option.some.injEq, Prod.mk.injEq, Except.ok.injEq,
            XState.mk.injEq]
          refine ⟨?_, ?_, trivial, trivial, ?_, ?_⟩
          · simp only [List.length_drop, List.length_cons]
            omega
          · omega
          · simp [framesBody, frameOf, List.append_assoc]
          · rw [txPkEvents]
            simp [List.append_assoc]

end Xmodem

namespace Xmodem

/-- Happy-path run of the receive loop: a well-formed frame sequence for
chunk list `cs` (sequence numbers starting at the session counter `p`)
followed by the EOT handshake is accepted completely. -/
theorem rxLoop_run (fuel : Nat) :
    ∀ (cs : List (List Nat)) (sink : List Nat) (received p : Nat) (st : Bool)
      (rest out : List Nat) (ev : List Progress),
      cs.length + 1 ≤ fuel → p < 256 → (∀ c ∈ cs, c.length ≤ 128) →
      rxLoop fuel sink received
          ⟨p, st, framesBody p cs ++ EOT :: EOT :: rest, out, ev⟩ =
        some (Except.ok (received + 128 * cs.length),
          ⟨(p + cs.length) % 256, (if cs = [] then st else true), rest,
           out ++ List.replicate cs.length ACK ++ [NAK, ACK],
           ev ++ rxEvents st p cs⟩,
          sink ++ (cs.map padChunk).flatten) := by
  induction fuel with
  | zero => intro cs sink received p st rest out ev hf hp hcs; omega
  | succ fuel ih =>
      intro cs sink received p st rest out ev hf hp hcs
      match cs with
      | [] =>
          simp only [framesBody, List.nil_append, rxLoop, rxTries,
            read_packet_eot]
          simp [rxEvents, Nat.mod_eq_of_lt hp]
      | c :: cs' =>
          have hc : c.length ≤ 128 := hcs c (by simp)
          have hf' : cs'.length + 1 ≤ fuel := by
            simp only [List.length_cons] at hf; omega
          have hp' : (p + 1) % 256 < 256 := Nat.mod_lt _ (by omega)
          have hcs' : ∀ x ∈ cs', x.length ≤ 128 := fun x hx => hcs x (by simp [hx])
          simp only [framesBody, List.append_assoc]
          simp only [rxLoop, rxTries, read_packet_good, hc]
          rw [ih cs' (sink ++ padChunk c) (received + 128) ((p + 1) % 256) true
            rest (out ++ [ACK])
            (ev ++ (if st then [Progress.Packet p]
                    else [Progress.Started, Progress.Packet p])) hf' hp' hcs']
          simp only [Option.some.injEq, Prod.mk.injEq, Except.ok.injEq,
            XState.mk.injEq]
          repeat' apply And.intro
          all_goals
            first
              | trivial
              | (simp only [List.length_cons]; omega)
              | (simp [List.replicate_succ, List.append_assoc]; done)
              | (cases st <;> simp [rxEvents, List.append_assoc]; done)
              | simp

end Xmodem

namespace Xmodem

/-- Full happy-path transmit run: with a compliant peer (handshake NAK, an
ACK per packet, then NAK/ACK for the EOT handshake) the transmitter sends
exactly the frames of `chunks P` followed by the double EOT, and returns
`P.length`. -/
theorem transmit_run (fuel : Nat) (P rest : List Nat)
    (hf : numChunks P + 1 ≤ fuel) :
    transmit_with_progress fuel P
        (NAK :: (List.replicate (numChunks P) ACK ++ NAK :: ACK :: rest)) =
      some (Except.ok P.length,
        ⟨(1 + numChunks P) % 256, true, rest,
         framesBody 1 (chunks P) ++ [EOT, EOT],
         Progress.Waiting :: Progress.Started :: txPkEvents 1 (numChunks P)⟩) := by
  match fuel with
  | 0 => omega
  | f + 1 =>
    match P with
    | [] =>
        rw [numChunks_nil, chunks_nil]
        simp [transmit_with_progress, txLoop, write_packet_eot_fresh,
          framesBody, txPkEvents]
    | a :: l =>
        have hstep : numChunks (a :: l) = numChunks ((a :: l).drop 128) + 1 :=
          numChunks_pos_step _ (by simp)
        rw [hstep] at hf
        rw [hstep, List.replicate_succ, chunks_cons]
        unfold transmit_with_progress
        have hn : ¬ (min 128 (a :: l).length = 0) := by simp
        have hcl : ((a :: l).take 128).length ≤ 128 := by simp [List.length_take]
        have hbuf : (a :: l).take 128 ++
            List.replicate (128 - min 128 (a :: l).length) 0
            = padChunk ((a :: l).take 128) := by
          unfold padChunk; rw [List.length_take]
        have hb128 := padChunk_length hcl
        simp only [txLoop]
        rw [if_neg hn, hbuf]
        simp only [List.cons_append]
        simp only [txTries, write_packet_data_fresh, hb128]
        rw [txLoop_run f ((a :: l).drop 128)
          (0 + min 128 (a :: l).length) ((1 + 1) % 256) rest
          ([] ++ SOH :: 1 :: not8 1 ::
            (padChunk ((a :: l).take 128) ++
              [get_checksum (padChunk ((a :: l).take 128))]))
          ([] ++ [Progress.Waiting, Progress.Started,
                  Progress.Packet ((1 + 1) % 256)])
          (by omega) (by omega)]
        simp only [Option.some.injEq, Prod.mk.injEq, Except.ok.injEq,
          XState.mk.injEq]
        repeat' apply And.intro
        all_goals
          first
            | trivial
            | omega
            | (simp only [List.length_drop, List.length_cons]; omega)
            | (simp [framesBody, frameOf, List.append_assoc]; done)
            | (simp [txPkEvents, List.append_assoc]; done)
            | simp

/-- Full happy-path receive run: fed well-formed frames for `cs` and the
EOT handshake, the receiver ACKs every packet, appends the padded chunks
to the sink and returns `128 * cs.length`. -/
theorem receive_run (fuel : Nat) (cs : List (List Nat)) (rest : List Nat)
    (hf : cs.length + 1 ≤ fuel) (hcs : ∀ c ∈ cs, c.length ≤ 128) :
    receive_with_progress fuel (framesBody 1 cs ++ EOT :: EOT :: rest) =
      some (Except.ok (128 * cs.length),
        ⟨(1 + cs.length) % 256, (if cs = [] then false else true), rest,
         NAK :: (List.replicate cs.length ACK ++ [NAK, ACK]),
         rxEvents false 1 cs⟩,
        (cs.map padChunk).flatten) := by
  unfold receive_with_progress
  simp only [write_byte, List.nil_append]
  rw [rxLoop_run fuel cs [] 0 1 false rest [NAK] [] hf (by omega) hcs]
  simp [List.append_assoc]

end Xmodem

namespace Xmodem

/-- One wire frame is 132 bytes: header (3) + payload (128) + checksum (1). -/
theorem frameOf_length (seq : Nat) (c : List Nat) (hc : c.length ≤ 128) :
    (frameOf seq c).length = 132 := by
  simp [frameOf, padChunk_length hc]

theorem framesBody_length (cs : List (List Nat)) :
    ∀ seq, (∀ c ∈ cs, c.length ≤ 128) →
      (framesBody seq cs).length = 132 * cs.length := by
  induction cs with
  | nil => intro seq _; simp [framesBody]
  | cons c cs ih =>
      intro seq h
      simp only [framesBody, List.length_append, List.length_cons,
        frameOf_length seq c (h c (by simp)),
        ih ((seq + 1) % 256) (fun x hx => h x (by simp [hx]))]
      ring

theorem framesBody_append (cs ds : List (List Nat)) :
    ∀ seq, seq < 256 →
      framesBody seq (cs ++ ds) =
        framesBody seq cs ++ framesBody ((seq + cs.length) % 256) ds := by
  induction cs with
  | nil =>
      intro seq h
      simp [framesBody, Nat.mod_eq_of_lt h]
  | cons c cs ih =>
      intro seq h
      simp only [List.cons_append, framesBody, List.append_eq]
      rw [ih ((seq + 1) % 256) (Nat.mod_lt _ (by omega))]
      rw [show ((seq + 1) % 256 + cs.length) % 256
          = (seq + (cs.length + 1)) % 256 from by omega]
      simp [List.length_cons]

/-- A nonempty payload's chunk list splits off a final chunk. -/
theorem chunks_snoc_aux (n : Nat) :
    ∀ P : List Nat, P.length ≤ n → P ≠ [] →
      ∃ cs c, chunks P = cs ++ [c] := by
  induction n with
  | zero =>
      intro P hP hne
      exact absurd (List.eq_nil_of_length_eq_zero (by omega)) hne
  | succ n ih =>
      intro P hP hne
      match P with
      | a :: l =>
          rw [chunks_cons]
          by_cases hd : (a :: l).drop 128 = []
          · exact ⟨[], (a :: l).take 128, by rw [hd, chunks_nil]; rfl⟩
          · obtain ⟨cs, c, hc⟩ :=
              ih ((a :: l).drop 128)
                (by simp only [List.length_drop, List.length_cons] at hP ⊢; omega) hd
            exact ⟨(a :: l).take 128 :: cs, c, by rw [hc]; rfl⟩

theorem chunks_snoc (P : List Nat) (h : P ≠ []) :
    ∃ cs c, chunks P = cs ++ [c] :=
  chunks_snoc_aux P.length P le_rfl h

/-- When the payload length is not a multiple of 128, the final chunk is
short: its length is `P.length % 128`, strictly between 0 and 128. -/
theorem chunks_last_short_aux (n : Nat) :
    ∀ P : List Nat, P.length ≤ n → ¬ (128 ∣ P.length) →
      ∃ cs c, chunks P = cs ++ [c] ∧ c.length = P.length % 128 ∧
        0 < c.length ∧ c.length < 128 := by
  induction n with
  | zero =>
      intro P hP hdvd
      have : P = [] := List.eq_nil_of_length_eq_zero (by omega)
      subst this; simp at hdvd
  | succ n ih =>
      intro P hP hdvd
      match P with
      | [] => simp at hdvd
      | a :: l =>
          rw [chunks_cons]
          by_cases h128 : (a :: l).length ≤ 128
          · refine ⟨[], (a :: l).take 128, ?_, ?_, ?_, ?_⟩
            · rw [List.drop_eq_nil_of_le h128, chunks_nil]; rfl
            · rw [List.take_of_length_le h128]
              have h1 : 1 ≤ (a :: l).length := by simp
              have hne : (a :: l).length ≠ 128 := by
                intro hx; exact hdvd (hx ▸ ⟨1, by omega⟩)
              omega
            · simp only [List.length_take, List.length_cons]; omega
            · simp only [List.length_take, List.length_cons]
              have hne : (a :: l).length ≠ 128 := by
                intro hx; exact hdvd (hx ▸ ⟨1, by omega⟩)
              simp only [List.length_cons] at hne h128
              omega
          · push_neg at h128
            have hdvd' : ¬ (128 ∣ ((a :: l).drop 128).length) := by
              simp only [List.length_drop]
              intro ⟨k, hk⟩
              exact hdvd ⟨k + 1, by omega⟩
            obtain ⟨cs, c, hc, hlen, hpos, hlt⟩ :=
              ih ((a :: l).drop 128)
                (by simp only [List.length_drop, List.length_cons] at hP ⊢; omega)
                hdvd'
            refine ⟨(a :: l).take 128 :: cs, c, by rw [hc]; rfl, ?_, hpos, hlt⟩
            rw [hlen]
            simp only [List.length_drop]
            omega

theorem chunks_last_short (P : List Nat) (h : ¬ (128 ∣ P.length)) :
    ∃ cs c, chunks P = cs ++ [c] ∧ c.length = P.length % 128 ∧
      0 < c.length ∧ c.length < 128 :=
  chunks_last_short_aux P.length P le_rfl h

end Xmodem

namespace Xmodem

theorem get_checksum_eq_sum (l : List Nat) : get_checksum l = l.sum % 256 := by
  have key : ∀ (l' : List Nat) (a : Nat), a < 256 →
      l'.foldl (fun x b => (x + b) % 256) a = (a + l'.sum) % 256 := by
    intro l'
    induction l' with
    | nil => intro a h; simp [Nat.mod_eq_of_lt h]
    | cons x l' ih =>
        intro a h
        simp only [List.foldl_cons, List.sum_cons]
        rw [ih _ (Nat.mod_lt _ (by omega))]
        omega
  simpa [get_checksum] using key l 0 (by omega)

/-- C7: the checksum of a payload is its byte sum under 8-bit wrapping
addition, and a payload whose length is not a multiple of 128 has its
final transmitted packet zero-padded to exactly 128 bytes, with the
checksum computed over the padded 128 bytes. -/
theorem claim_c7_checksum :
    (∀ l : List Nat, get_checksum l = l.sum % 256) ∧
    (∀ (P rest : List Nat) (fuel : Nat),
      numChunks P + 1 ≤ fuel → ¬ (128 ∣ P.length) →
      ∃ pre c seqL,
        (transmit_with_progress fuel P
            (NAK :: (List.replicate (numChunks P) ACK ++ NAK :: ACK :: rest))).map
            (fun r => r.2.output) =
          some (pre ++
            (SOH :: seqL :: not8 seqL ::
              ((c ++ List.replicate (128 - c.length) 0) ++
                [get_checksum (c ++ List.replicate (128 - c.length) 0)])) ++
            [EOT, EOT]) ∧
        c.length = P.length % 128 ∧ 0 < c.length ∧ c.length < 128 ∧
        (c ++ List.replicate (128 - c.length) 0).length = 128) := by
  refine ⟨get_checksum_eq_sum, ?_⟩
  intro P rest fuel hf hdvd
  obtain ⟨cs, c, hc, hlen, hpos, hlt⟩ := chunks_last_short P hdvd
  refine ⟨framesBody 1 cs, c, (1 + cs.length) % 256, ?_, hlen, hpos, hlt, ?_⟩
  · rw [transmit_run fuel P rest hf]
    simp only [Option.map_some']
    rw [hc, framesBody_append cs [c] 1 (by omega)]
    simp [framesBody, frameOf, padChunk, List.append_assoc]
  · have h := padChunk_length (c := c) (by omega)
    simpa [padChunk] using h

theorem claim_c7_checksum_witness :
    numChunks [65, 66, 67] + 1 ≤ 2 ∧
    ¬ (128 ∣ ([65, 66, 67] : List Nat).length) ∧
    (∃ pre c seqL,
      (transmit_with_progress 2 [65, 66, 67]
          (NAK :: (List.replicate (numChunks [65, 66, 67]) ACK ++
            NAK :: ACK :: []))).map
          (fun r => r.2.output) =
        some (pre ++
          (SOH :: seqL :: not8 seqL ::
            ((c ++ List.replicate (128 - c.length) 0) ++
              [get_checksum (c ++ List.replicate (128 - c.length) 0)])) ++
          [EOT, EOT]) ∧
      c.length = ([65, 66, 67] : List Nat).length % 128 ∧
      0 < c.length ∧ c.length < 128 ∧
      (c ++ List.replicate (128 - c.length) 0).length = 128) :=
  ⟨by decide, by decide,
   claim_c7_checksum.2 [65, 66, 67] [] 2 (by decide) (by decide)⟩

/-- C8: the sequence counter starts at 1 and wraps modulo 256; for a
payload of 257 packets, the 257th frame (at byte offset `256 * 132` of
the transmitter's output) carries sequence byte 1 and complement 254. -/
theorem claim_c8_seq_wrap (P rest : List Nat) (fuel : Nat)
    (hf : (P.length + 127) / 128 + 1 ≤ fuel)
    (h257 : (P.length + 127) / 128 = 257) :
    ∃ pre c,
      (transmit_with_progress fuel P
          (NAK :: (List.replicate (numChunks P) ACK ++ NAK :: ACK :: rest))).map
          (fun r => r.2.output) =
        some (pre ++
          (SOH :: 1 :: 254 :: (padChunk c ++ [get_checksum (padChunk c)])) ++
          [EOT, EOT]) ∧
      pre.length = 256 * 132 := by
  have h257n : numChunks P = 257 := h257
  have hfn : numChunks P + 1 ≤ fuel := hf
  have hne : P ≠ [] := by
    intro h
    rw [h, numChunks_nil] at h257n
    omega
  obtain ⟨cs, c, hc⟩ := chunks_snoc P hne
  have hlen : cs.length = 256 := by
    have hl := chunks_length P
    rw [hc] at hl
    simp only [List.length_append, List.length_cons, List.length_nil] at hl
    rw [h257n] at hl
    omega
  have hcs128 : ∀ x ∈ cs, x.length ≤ 128 := fun x hx =>
    chunks_short_len P x (by rw [hc]; exact List.mem_append_left _ hx)
  refine ⟨framesBody 1 cs, c, ?_, ?_⟩
  · rw [transmit_run fuel P rest hfn]
    simp only [Option.map_some']
    rw [hc, framesBody_append cs [c] 1 (by omega), hlen]
    norm_num
    simp [framesBody, frameOf, List.append_assoc, not8]
  · rw [framesBody_length cs 1 hcs128, hlen]

theorem claim_c8_seq_wrap_witness :
    ((List.replicate 32896 (0 : Nat)).length + 127) / 128 = 257 ∧
    ((List.replicate 32896 (0 : Nat)).length + 127) / 128 + 1 ≤ 258 ∧
    (∃ pre c,
      (transmit_with_progress 258 (List.replicate 32896 0)
          (NAK :: (List.replicate (numChunks (List.replicate 32896 0)) ACK ++
            NAK :: ACK :: []))).map
          (fun r => r.2.output) =
        some (pre ++
          (SOH :: 1 :: 254 :: (padChunk c ++ [get_checksum (padChunk c)])) ++
          [EOT, EOT]) ∧
      pre.length = 256 * 132) := by
  have hnum : ((List.replicate 32896 (0 : Nat)).length + 127) / 128 = 257 := by
    simp only [List.length_replicate]
  have hle : ((List.replicate 32896 (0 : Nat)).length + 127) / 128 + 1 ≤ 258 := by
    simp only [List.length_replicate]
    norm_num
  exact ⟨hnum, hle, claim_c8_seq_wrap (List.replicate 32896 0) [] 258 hle hnum⟩

set_option maxRecDepth 40000 in
/-- C9 counterexample: the concrete 3-byte scenario produces checksum byte
0xC6, not the 0xCA the claim asserts ((0x41+0x42+0x43) mod 256 = 0xC6). -/
theorem claim_c9_counterexample :
    (transmit_with_progress 2 [0x41, 0x42, 0x43] [NAK, ACK, NAK, ACK]).map
        (fun r => (r.1, r.2.output)) =
      some (Except.ok 3,
        [SOH, 1, 254, 0x41, 0x42, 0x43] ++ List.replicate 125 0 ++
          [0xC6, EOT, EOT]) ∧
    get_checksum ([0x41, 0x42, 0x43] ++ List.replicate 125 0) = 0xC6 ∧
    (0xC6 : Nat) ≠ 0xCA := by
  refine ⟨by decide, by decide, by decide⟩

set_option maxRecDepth 40000 in
/-- C9 (amended): the 3-byte scenario emits
`SOH 01 FE 41 42 43 00*125 C6`, then EOT/NAK/EOT/ACK, and reports 3 bytes
written. -/
theorem claim_c9_amended :
    transmit_with_progress 2 [0x41, 0x42, 0x43] [NAK, ACK, NAK, ACK] =
      some (Except.ok 3,
        ⟨2, true, [],
         [SOH, 1, 254, 0x41, 0x42, 0x43] ++ List.replicate 125 0 ++
           [0xC6, EOT, EOT],
         [Progress.Waiting, Progress.Started, Progress.Packet 2]⟩) := by
  decide

end Xmodem

namespace Xmodem

set_option maxRecDepth 40000 in
/-- C1 counterexample: receiving the valid one-packet transfer of payload
`[0x41, 0x42, 0x43]` yields a 128-byte sink (padding included) and byte
count 128, not the 3-byte payload. -/
theorem claim_c1_counterexample :
    (receive_with_progress 2
        ([SOH, 1, 254, 0x41, 0x42, 0x43] ++ List.replicate 125 0 ++
          [0xC6, EOT, EOT])).map (fun r => (r.1, r.2.2)) =
      some (Except.ok 128, [0x41, 0x42, 0x43] ++ List.replicate 125 0) ∧
    ([0x41, 0x42, 0x43] ++ List.replicate 125 0 ≠ ([0x41, 0x42, 0x43] : List Nat)) ∧
    (128 : Nat) ≠ 3 := by
  exact ⟨by decide, by decide, by decide⟩

/-- C1 (amended): over a loopback the transmitter's wire output is exactly
what the receiver consumes and vice versa; the transmitter reports
`P.length`, the receiver reports `128 * numChunks P` and its sink is `P`
zero-padded to the next multiple of 128 (so `S = P` exactly iff
`128 ∣ P.length`). -/
theorem claim_c1_roundtrip (P : List Nat) :
    transmit_with_progress (numChunks P + 1) P
        (NAK :: (List.replicate (numChunks P) ACK ++ NAK :: ACK :: [])) =
      some (Except.ok P.length,
        ⟨(1 + numChunks P) % 256, true, [],
         framesBody 1 (chunks P) ++ [EOT, EOT],
         Progress.Waiting :: Progress.Started :: txPkEvents 1 (numChunks P)⟩) ∧
    receive_with_progress (numChunks P + 1)
        (framesBody 1 (chunks P) ++ EOT :: EOT :: []) =
      some (Except.ok (128 * numChunks P),
        ⟨(1 + numChunks P) % 256, (if chunks P = [] then false else true), [],
         NAK :: (List.replicate (numChunks P) ACK ++ [NAK, ACK]),
         rxEvents false 1 (chunks P)⟩,
        P ++ List.replicate (padLen P) 0) ∧
    (padLen P = 0 ↔ 128 ∣ P.length) := by
  refine ⟨transmit_run _ P [] le_rfl, ?_, ?_⟩
  · have h := receive_run (numChunks P + 1) (chunks P) []
      (by rw [chunks_length]) (chunks_short_len P)
    rw [chunks_length, chunks_join_pad] at h
    exact h
  · simp only [padLen]
    omega

/-! ### Closed forms of the receiver's progress events -/

theorem rxEvents_true_map (cs : List (List Nat)) :
    ∀ seq, seq < 256 →
      rxEvents true seq cs =
        (List.range cs.length).map (fun i => Progress.Packet ((seq + i) % 256)) := by
  induction cs with
  | nil => intro seq h; simp [rxEvents]
  | cons c cs ih =>
      intro seq h
      simp only [rxEvents, if_pos, List.nil_append]
      rw [ih ((seq + 1) % 256) (Nat.mod_lt _ (by omega)),
        List.length_cons, List.range_succ_eq_map]
      simp only [List.map_cons, List.map_map, Function.comp_def,
        Nat.add_zero, Nat.succ_eq_add_one]
      congr 1
      · congr 1
        omega
      · apply List.map_congr_left
        intro i _
        congr 1
        omega

theorem rxEvents_false_map (cs : List (List Nat)) (seq : Nat) (h : seq < 256) :
    rxEvents false seq cs =
      if cs = [] then []
      else Progress.Started ::
        (List.range cs.length).map (fun i => Progress.Packet ((seq + i) % 256)) := by
  match cs with
  | [] => simp [rxEvents]
  | c :: cs' =>
      simp only [rxEvents, List.cons_ne_nil, if_neg, if_false,
        List.singleton_append, reduceIte]
      rw [rxEvents_true_map cs' ((seq + 1) % 256) (Nat.mod_lt _ (by omega)),
        List.length_cons, List.range_succ_eq_map]
      simp only [List.map_cons, List.map_map, Function.comp_def,
        Nat.add_zero, Nat.succ_eq_add_one, Bool.false_eq_true, if_false,
        List.nil_append, List.singleton_append]
      rw [Nat.mod_eq_of_lt h]
      congr 2
      apply List.map_congr_left
      intro i _
      congr 1
      omega

end Xmodem

namespace Xmodem

set_option maxRecDepth 40000 in
/-- C5 counterexample: in the transmit role the first acknowledged packet
is reported as `Packet 2` (counter advanced before reporting), not
`Packet 1`; in the receive role no `Waiting` event is ever reported. -/
theorem claim_c5_counterexample :
    (transmit_with_progress 2 [0x41, 0x42, 0x43] [NAK, ACK, NAK, ACK]).map
        (fun r => r.2.events) =
      some [Progress.Waiting, Progress.Started, Progress.Packet 2] ∧
    ([Progress.Waiting, Progress.Started, Progress.Packet 2] ≠
      [Progress.Waiting, Progress.Started, Progress.Packet 1]) ∧
    (receive_with_progress 2
        ([SOH, 1, 254, 0x41, 0x42, 0x43] ++ List.replicate 125 0 ++
          [0xC6, EOT, EOT])).map (fun r => r.2.1.events) =
      some [Progress.Started, Progress.Packet 1] ∧
    Progress.Waiting ∉ [Progress.Started, Progress.Packet 1] := by
  exact ⟨by decide, by decide, by decide, by decide⟩

/-- C5 (amended): on a fault-free transfer the transmit role reports
`Waiting, Started, Packet((1+i+1) mod 256)` for the i-th packet (0-based),
i.e. `Packet 2, Packet 3, …`; the receive role reports no `Waiting`, then
`Started`, then `Packet((1+i) mod 256)`, i.e. `Packet 1, Packet 2, …`. -/
theorem claim_c5_progress_order (P rest : List Nat) (fuel : Nat)
    (hf : numChunks P + 1 ≤ fuel) :
    (transmit_with_progress fuel P
        (NAK :: (List.replicate (numChunks P) ACK ++ NAK :: ACK :: rest))).map
        (fun r => r.2.events) =
      some (Progress.Waiting :: Progress.Started ::
        (List.range (numChunks P)).map
          (fun i => Progress.Packet ((1 + i + 1) % 256))) ∧
    (receive_with_progress fuel
        (framesBody 1 (chunks P) ++ EOT :: EOT :: rest)).map
        (fun r => r.2.1.events) =
      some (if chunks P = [] then []
        else Progress.Started ::
          (List.range (numChunks P)).map
            (fun i => Progress.Packet ((1 + i) % 256))) := by
  constructor
  · rw [transmit_run fuel P rest hf]
    simp only [Option.map_some']
    rw [txPkEvents_map (numChunks P) 1 (by omega)]
  · rw [receive_run fuel (chunks P) rest
      (by rw [chunks_length]; omega) (chunks_short_len P)]
    simp only [Option.map_some']
    rw [rxEvents_false_map (chunks P) 1 (by omega), chunks_length]

theorem claim_c5_progress_order_witness :
    numChunks [65, 66, 67] + 1 ≤ 2 ∧
    ((transmit_with_progress 2 [65, 66, 67]
        (NAK :: (List.replicate (numChunks [65, 66, 67]) ACK ++
          NAK :: ACK :: []))).map
        (fun r => r.2.events) =
      some (Progress.Waiting :: Progress.Started ::
        (List.range (numChunks [65, 66, 67])).map
          (fun i => Progress.Packet ((1 + i + 1) % 256))) ∧
    (receive_with_progress 2
        (framesBody 1 (chunks [65, 66, 67]) ++ EOT :: EOT :: [])).map
        (fun r => r.2.1.events) =
      some (if chunks [65, 66, 67] = [] then []
        else Progress.Started ::
          (List.range (numChunks [65, 66, 67])).map
            (fun i => Progress.Packet ((1 + i) % 256)))) :=
  ⟨by decide, claim_c5_progress_order [65, 66, 67] [] 2 (by decide)⟩

end Xmodem

namespace Xmodem

/-! ### Termination-phase behaviour of `write_packet []` on faulty bytes -/

theorem write_packet_eot_can1 (p : Nat) (rest out : List Nat)
    (ev : List Progress) :
    write_packet [] ⟨p, true, CAN :: rest, out, ev⟩ =
      (Except.error ErrKind.connectionAborted,
       ⟨p, true, rest, out ++ [EOT], ev⟩) := by
  simp [write_packet, expect_byte, read_byte_cons, write_byte, NAK, CAN]

theorem write_packet_eot_can2 (p : Nat) (rest out : List Nat)
    (ev : List Progress) :
    write_packet [] ⟨p, true, NAK :: CAN :: rest, out, ev⟩ =
      (Except.error ErrKind.connectionAborted,
       ⟨p, true, rest, out ++ [EOT, EOT], ev⟩) := by
  simp [write_packet, expect_byte, read_byte_cons, write_byte, ACK, NAK, CAN]

theorem write_packet_eot_bad1 (p b : Nat) (rest out : List Nat)
    (ev : List Progress) (h1 : b ≠ NAK) (h2 : b ≠ CAN) :
    write_packet [] ⟨p, true, b :: rest, out, ev⟩ =
      (Except.error ErrKind.invalidData, ⟨p, true, rest, out ++ [EOT], ev⟩) := by
  have e1 : b ≠ 21 := by simpa [NAK] using h1
  have e2 : b ≠ 24 := by simpa [CAN] using h2
  simp [write_packet, expect_byte, read_byte_cons, write_byte, e1, e2, NAK, CAN]

theorem write_packet_eot_bad2 (p b : Nat) (rest out : List Nat)
    (ev : List Progress) (h1 : b ≠ ACK) (h2 : b ≠ CAN) :
    write_packet [] ⟨p, true, NAK :: b :: rest, out, ev⟩ =
      (Except.error ErrKind.invalidData,
       ⟨p, true, rest, out ++ [EOT, EOT], ev⟩) := by
  have e1 : b ≠ 6 := by simpa [ACK] using h1
  have e2 : b ≠ 24 := by simpa [CAN] using h2
  simp [write_packet, expect_byte, read_byte_cons, write_byte, e1, e2,
    ACK, NAK, CAN]

theorem write_packet_eot_bad1_fresh (p b : Nat) (rest out : List Nat)
    (ev : List Progress) (h1 : b ≠ NAK) (h2 : b ≠ CAN) :
    write_packet [] ⟨p, false, NAK :: b :: rest, out, ev⟩ =
      (Except.error ErrKind.invalidData,
       ⟨p, true, rest, out ++ [EOT],
        ev ++ [Progress.Waiting, Progress.Started]⟩) := by
  have e1 : b ≠ 21 := by simpa [NAK] using h1
  have e2 : b ≠ 24 := by simpa [CAN] using h2
  simp [write_packet, expect_byte, read_byte_cons, pushEvent, write_byte,
    e1, e2, NAK, CAN]

set_option maxRecDepth 40000 in
/-- C2 counterexample: a sequence-byte mismatch makes the whole receive
call fail with `InvalidData` (it is not retried), even though a valid
retransmission follows in the stream; a NAK is sent first. -/
theorem claim_c2_counterexample :
    (receive_with_progress 3
        ([SOH, 2, 253] ++
          ([SOH, 1, 254] ++ List.replicate 128 0 ++ [0, EOT, EOT]))).map
        (fun r => (r.1, r.2.1.output)) =
      some (Except.error ErrKind.invalidData, [NAK, NAK]) ∧
    ErrKind.invalidData ≠ ErrKind.interrupted := by
  exact ⟨by decide, by decide⟩

/-- C2 (amended): on a sequence-byte/complement mismatch `read_packet`
sends a NAK but returns an `InvalidData` fault, which
`receive_with_progress` treats as fatal (only `Interrupted` faults consume
a retry attempt), so the transfer aborts. -/
theorem claim_c2_seq_mismatch (a b : Nat) (rest : List Nat) (fuel : Nat)
    (hfuel : 1 ≤ fuel) (h : a ≠ 1 ∨ b ≠ 254) :
    receive_with_progress fuel (SOH :: a :: b :: rest) =
      some (Except.error ErrKind.invalidData,
        ⟨1, true, rest, [NAK, NAK], [Progress.Started]⟩, []) ∧
    (∀ (p : Nat) (st : Bool) (rest' out : List Nat) (ev : List Progress),
      (a ≠ p ∨ b ≠ not8 p) →
      read_packet 128 ⟨p, st, SOH :: a :: b :: rest', out, ev⟩ =
        (Except.error ErrKind.invalidData,
         ⟨p, true, rest', out ++ [NAK],
          ev ++ (if st then [] else [Progress.Started])⟩)) := by
  have h' : a ≠ 1 ∨ b ≠ not8 1 := by simpa [not8] using h
  constructor
  · match fuel with
    | 0 => omega
    | f + 1 =>
        simp [receive_with_progress, write_byte, rxLoop, rxTries,
          read_packet_badseq 1 false a b rest [NAK] [] h']
  · intro p st rest' out ev hm
    exact read_packet_badseq p st a b rest' out ev hm

theorem claim_c2_seq_mismatch_witness :
    (1 ≤ 1) ∧ ((5 : Nat) ≠ 1 ∨ (250 : Nat) ≠ 254) ∧
    (receive_with_progress 1 (SOH :: 5 :: 250 :: []) =
      some (Except.error ErrKind.invalidData,
        ⟨1, true, [], [NAK, NAK], [Progress.Started]⟩, []) ∧
    (∀ (p : Nat) (st : Bool) (rest' out : List Nat) (ev : List Progress),
      ((5 : Nat) ≠ p ∨ (250 : Nat) ≠ not8 p) →
      read_packet 128 ⟨p, st, SOH :: 5 :: 250 :: rest', out, ev⟩ =
        (Except.error ErrKind.invalidData,
         ⟨p, true, rest', out ++ [NAK],
          ev ++ (if st then [] else [Progress.Started])⟩))) :=
  ⟨le_rfl, by decide, claim_c2_seq_mismatch 5 250 [] 1 le_rfl (by decide)⟩

end Xmodem

namespace Xmodem

set_option maxRecDepth 40000 in
/-- C3 counterexample: a cancel byte at the sequence-byte position of a
packet is treated as a sequence mismatch (NAK + `InvalidData`), and at the
checksum position as a checksum mismatch (`Interrupted`) — not as
`ConnectionAborted`. -/
theorem claim_c3_counterexample :
    (read_packet 128 ⟨1, true, [SOH, CAN, 0xE7, 0, 0], [], []⟩).1 =
      Except.error ErrKind.invalidData ∧
    ErrKind.invalidData ≠ ErrKind.connectionAborted ∧
    (read_packet 128 ⟨1, true,
        [SOH, 1, 254] ++ List.replicate 128 1 ++ [CAN], [], []⟩).1 =
      Except.error ErrKind.interrupted ∧
    ErrKind.interrupted ≠ ErrKind.connectionAborted := by
  exact ⟨by decide, by decide, by decide, by decide⟩

/-- C3 (amended): a cancel byte is fatal (`ConnectionAborted`) exactly at
the byte positions the code inspects for it — the packet-start byte, the
byte after an unrecognized start byte, the transmitter's handshake byte,
the transmitter's response byte, and both transmitter termination
responses — while at the sequence-byte, checksum-byte and second-EOT
positions it is treated as framing/checksum data (`InvalidData` or
`Interrupted`), not as a cancel. -/
theorem claim_c3_cancel :
    (∀ (p : Nat) (st : Bool) (rest out : List Nat) (ev : List Progress),
      read_packet 128 ⟨p, st, CAN :: rest, out, ev⟩ =
        (Except.error ErrKind.connectionAborted, ⟨p, st, rest, out, ev⟩)) ∧
    (∀ (p : Nat) (st : Bool) (g : Nat) (rest out : List Nat)
       (ev : List Progress), g ≠ SOH → g ≠ EOT → g ≠ CAN →
      read_packet 128 ⟨p, st, g :: CAN :: rest, out, ev⟩ =
        (Except.error ErrKind.connectionAborted, ⟨p, st, rest, out, ev⟩)) ∧
    (∀ (p : Nat) (buf rest out : List Nat) (ev : List Progress),
      buf.length = 128 ∨ buf = [] →
      write_packet buf ⟨p, false, CAN :: rest, out, ev⟩ =
        (Except.error ErrKind.connectionAborted,
         ⟨p, false, rest, out, ev ++ [Progress.Waiting]⟩)) ∧
    (∀ (p : Nat) (buf rest out : List Nat) (ev : List Progress),
      buf.length = 128 →
      write_packet buf ⟨p, true, CAN :: rest, out, ev⟩ =
        (Except.error ErrKind.connectionAborted,
         ⟨p, true, rest,
          out ++ SOH :: p :: not8 p :: (buf ++ [get_checksum buf]), ev⟩)) ∧
    (∀ (p : Nat) (rest out : List Nat) (ev : List Progress),
      write_packet [] ⟨p, true, CAN :: rest, out, ev⟩ =
        (Except.error ErrKind.connectionAborted,
         ⟨p, true, rest, out ++ [EOT], ev⟩)) ∧
    (∀ (p : Nat) (rest out : List Nat) (ev : List Progress),
      write_packet [] ⟨p, true, NAK :: CAN :: rest, out, ev⟩ =
        (Except.error ErrKind.connectionAborted,
         ⟨p, true, rest, out ++ [EOT, EOT], ev⟩)) ∧
    (∀ (p : Nat) (st : Bool) (b : Nat) (rest out : List Nat)
       (ev : List Progress), p ≠ CAN →
      read_packet 128 ⟨p, st, SOH :: CAN :: b :: rest, out, ev⟩ =
        (Except.error ErrKind.invalidData,
         ⟨p, true, rest, out ++ [NAK],
          ev ++ (if st then [] else [Progress.Started])⟩)) ∧
    (∀ (p : Nat) (st : Bool) (d rest out : List Nat) (ev : List Progress),
      d.length = 128 → get_checksum d ≠ CAN →
      read_packet 128 ⟨p, st, SOH :: p :: not8 p :: (d ++ CAN :: rest),
          out, ev⟩ =
        (Except.error ErrKind.interrupted,
         ⟨p, true, rest, out ++ [NAK],
          ev ++ (if st then [] else [Progress.Started])⟩)) ∧
    (∀ (p : Nat) (st : Bool) (rest out : List Nat) (ev : List Progress),
      read_packet 128 ⟨p, st, EOT :: CAN :: rest, out, ev⟩ =
        (Except.error ErrKind.invalidData, ⟨p, st, rest, out ++ [NAK], ev⟩)) := by
  refine ⟨read_packet_can, read_packet_garbage_can, ?_, ?_, ?_, ?_, ?_, ?_, ?_⟩
  · intro p buf rest out ev hb
    have h := write_packet_hs_can p CAN buf rest out ev hb (by simp [NAK, CAN])
    simpa using h
  · intro p buf rest out ev hb
    exact write_packet_can_resp p buf rest out ev hb
  · exact write_packet_eot_can1
  · exact write_packet_eot_can2
  · intro p st b rest out ev hp
    exact read_packet_badseq p st CAN b rest out ev (Or.inl (Ne.symm hp))
  · intro p st d rest out ev hd hck
    exact read_packet_badck p st d CAN rest out ev hd hck
  · intro p st rest out ev
    exact read_packet_eot_bad p st CAN rest out ev (by simp [EOT, CAN])

set_option maxRecDepth 40000 in
theorem claim_c3_cancel_witness :
    ((99 : Nat) ≠ SOH ∧ (99 : Nat) ≠ EOT ∧ (99 : Nat) ≠ CAN ∧
     ((List.replicate 128 (0 : Nat)).length = 128 ∨
       List.replicate 128 (0 : Nat) = []) ∧
     (List.replicate 128 (0 : Nat)).length = 128 ∧ (1 : Nat) ≠ CAN ∧
     get_checksum (List.replicate 128 (0 : Nat)) ≠ CAN) ∧
    read_packet 128 ⟨1, true, CAN :: [], [], []⟩ =
      (Except.error ErrKind.connectionAborted, ⟨1, true, [], [], []⟩) ∧
    read_packet 128 ⟨1, true, 99 :: CAN :: [], [], []⟩ =
      (Except.error ErrKind.connectionAborted, ⟨1, true, [], [], []⟩) ∧
    write_packet (List.replicate 128 0) ⟨1, false, CAN :: [], [], []⟩ =
      (Except.error ErrKind.connectionAborted,
       ⟨1, false, [], [], [Progress.Waiting]⟩) ∧
    write_packet (List.replicate 128 0) ⟨1, true, CAN :: [], [], []⟩ =
      (Except.error ErrKind.connectionAborted,
       ⟨1, true, [],
        [] ++ SOH :: 1 :: not8 1 ::
          (List.replicate 128 0 ++ [get_checksum (List.replicate 128 0)]),
        []⟩) ∧
    write_packet [] ⟨1, true, CAN :: [], [], []⟩ =
      (Except.error ErrKind.connectionAborted, ⟨1, true, [], [] ++ [EOT], []⟩) ∧
    write_packet [] ⟨1, true, NAK :: CAN :: [], [], []⟩ =
      (Except.error ErrKind.connectionAborted,
       ⟨1, true, [], [] ++ [EOT, EOT], []⟩) ∧
    read_packet 128 ⟨1, true, SOH :: CAN :: 0 :: [], [], []⟩ =
      (Except.error ErrKind.invalidData,
       ⟨1, true, [], [] ++ [NAK], [] ++ (if true then [] else [Progress.Started])⟩) ∧
    read_packet 128
        ⟨1, true, SOH :: 1 :: not8 1 :: (List.replicate 128 0 ++ CAN :: []),
         [], []⟩ =
      (Except.error ErrKind.interrupted,
       ⟨1, true, [], [] ++ [NAK], [] ++ (if true then [] else [Progress.Started])⟩) ∧
    read_packet 128 ⟨1, true, EOT :: CAN :: [], [], []⟩ =
      (Except.error ErrKind.invalidData, ⟨1, true, [], [] ++ [NAK], []⟩) :=
  ⟨⟨by decide, by decide, by decide, by decide, by decide, by decide, by decide⟩,
   (by simpa using claim_c3_cancel.1 1 true [] [] []),
   (claim_c3_cancel.2.1 1 true 99 [] [] [] (by decide) (by decide) (by decide)),
   (by simpa using
     claim_c3_cancel.2.2.1 1 (List.replicate 128 0) [] [] [] (Or.inl (by decide))),
   (by simpa using
     claim_c3_cancel.2.2.2.1 1 (List.replicate 128 0) [] [] [] (by decide)),
   (by simpa using claim_c3_cancel.2.2.2.2.1 1 [] [] []),
   (by simpa using claim_c3_cancel.2.2.2.2.2.1 1 [] [] []),
   (claim_c3_cancel.2.2.2.2.2.2.1 1 true 0 [] [] [] (by decide)),
   (claim_c3_cancel.2.2.2.2.2.2.2.1 1 true (List.replicate 128 0) [] [] []
     (by decide) (by decide)),
   (claim_c3_cancel.2.2.2.2.2.2.2.2 1 true [] [] [])⟩

end Xmodem

namespace Xmodem

/-- C4: in the transmit role the termination phase sends EOT, expects NAK,
sends EOT again, expects ACK, and returns the total bytes sent; a protocol
violation (any byte other than the expected NAK/ACK or a cancel) is an
`InvalidData` fault — which the retry policy classifies as fatal — and is
returned to the caller. -/
theorem claim_c4_termination :
    (∀ (p : Nat) (rest out : List Nat) (ev : List Progress),
      write_packet [] ⟨p, true, NAK :: ACK :: rest, out, ev⟩ =
        (Except.ok 0, ⟨p, true, rest, out ++ [EOT, EOT], ev⟩)) ∧
    (∀ (P rest : List Nat) (fuel : Nat), numChunks P + 1 ≤ fuel →
      (transmit_with_progress fuel P
          (NAK :: (List.replicate (numChunks P) ACK ++ NAK :: ACK :: rest))).map
          (fun r => r.1) = some (Except.ok P.length)) ∧
    (∀ (p b : Nat) (rest out : List Nat) (ev : List Progress),
      b ≠ NAK → b ≠ CAN →
      write_packet [] ⟨p, true, b :: rest, out, ev⟩ =
        (Except.error ErrKind.invalidData,
         ⟨p, true, rest, out ++ [EOT], ev⟩)) ∧
    (∀ (p b : Nat) (rest out : List Nat) (ev : List Progress),
      b ≠ ACK → b ≠ CAN →
      write_packet [] ⟨p, true, NAK :: b :: rest, out, ev⟩ =
        (Except.error ErrKind.invalidData,
         ⟨p, true, rest, out ++ [EOT, EOT], ev⟩)) ∧
    (∀ (b : Nat) (rest : List Nat) (fuel : Nat),
      1 ≤ fuel → b ≠ NAK → b ≠ CAN →
      transmit_with_progress fuel [] (NAK :: b :: rest) =
        some (Except.error ErrKind.invalidData,
          ⟨1, true, rest, [EOT], [Progress.Waiting, Progress.Started]⟩)) := by
  refine ⟨write_packet_eot_started, ?_, write_packet_eot_bad1,
    write_packet_eot_bad2, ?_⟩
  · intro P rest fuel hf
    rw [transmit_run fuel P rest hf]
    simp
  · intro b rest fuel hfuel h1 h2
    match fuel with
    | 0 => omega
    | f + 1 =>
        simp [transmit_with_progress, txLoop,
          write_packet_eot_bad1_fresh 1 b rest [] [] h1 h2]

theorem claim_c4_termination_witness :
    (numChunks [65, 66, 67] + 1 ≤ 2 ∧ (0 : Nat) ≠ NAK ∧ (0 : Nat) ≠ CAN ∧
     (0 : Nat) ≠ ACK ∧ (1 : Nat) ≤ 1) ∧
    write_packet [] ⟨7, true, NAK :: ACK :: [], [], []⟩ =
      (Except.ok 0, ⟨7, true, [], [] ++ [EOT, EOT], []⟩) ∧
    (transmit_with_progress 2 [65, 66, 67]
        (NAK :: (List.replicate (numChunks [65, 66, 67]) ACK ++
          NAK :: ACK :: []))).map (fun r => r.1) =
      some (Except.ok ([65, 66, 67] : List Nat).length) ∧
    write_packet [] ⟨7, true, 0 :: [], [], []⟩ =
      (Except.error ErrKind.invalidData, ⟨7, true, [], [] ++ [EOT], []⟩) ∧
    write_packet [] ⟨7, true, NAK :: 0 :: [], [], []⟩ =
      (Except.error ErrKind.invalidData, ⟨7, true, [], [] ++ [EOT, EOT], []⟩) ∧
    transmit_with_progress 1 [] (NAK :: 0 :: []) =
      some (Except.error ErrKind.invalidData,
        ⟨1, true, [], [EOT], [Progress.Waiting, Progress.Started]⟩) :=
  ⟨⟨by decide, by decide, by decide, by decide, le_rfl⟩,
   (claim_c4_termination.1 7 [] [] []),
   (claim_c4_termination.2.1 [65, 66, 67] [] 2 (by decide)),
   (claim_c4_termination.2.2.1 7 0 [] [] [] (by decide) (by decide)),
   (claim_c4_termination.2.2.2.1 7 0 [] [] [] (by decide) (by decide)),
   (claim_c4_termination.2.2.2.2 0 [] 1 le_rfl (by decide) (by decide))⟩

end Xmodem

namespace Xmodem

/-- The wire bytes of one data frame as `write_packet` emits them. -/
def frameBytes (p : Nat) (buf : List Nat) : List Nat :=
  SOH :: p :: not8 p :: (buf ++ [get_checksum buf])

/-- A run of checksum-corrupted frames for expected sequence `p`: each
carries the correct sequence/complement bytes, 128 data bytes `d`, and a
wrong checksum byte `c`. -/
def badWire (p : Nat) : List (List Nat × Nat) → List Nat
  | [] => []
  | (d, c) :: rest => SOH :: p :: not8 p :: (d ++ c :: badWire p rest)

theorem write_packet_nak_fresh (p : Nat) (buf rest out : List Nat)
    (ev : List Progress) (hb : buf.length = 128) :
    write_packet buf ⟨p, false, NAK :: NAK :: rest, out, ev⟩ =
      (Except.error ErrKind.interrupted,
       ⟨p, true, rest,
        out ++ SOH :: p :: not8 p :: (buf ++ [get_checksum buf]),
        ev ++ [Progress.Waiting, Progress.Started]⟩) := by
  have hne : buf ≠ [] := by intro h; rw [h] at hb; simp at hb
  simp [write_packet, expect_byte, read_byte_cons, pushEvent, write_byte,
    hb, hne, ACK, NAK, CAN]

theorem write_packet_bad_resp_fresh (p g : Nat) (buf rest out : List Nat)
    (ev : List Progress) (hb : buf.length = 128)
    (h1 : g ≠ ACK) (h2 : g ≠ NAK) (h3 : g ≠ CAN) :
    write_packet buf ⟨p, false, NAK :: g :: rest, out, ev⟩ =
      (Except.error ErrKind.invalidData,
       ⟨p, true, rest,
        out ++ SOH :: p :: not8 p :: (buf ++ [get_checksum buf]),
        ev ++ [Progress.Waiting, Progress.Started]⟩) := by
  have hne : buf ≠ [] := by intro h; rw [h] at hb; simp at hb
  have e1 : g ≠ 6 := by simpa [ACK] using h1
  have e2 : g ≠ 21 := by simpa [NAK] using h2
  have e3 : g ≠ 24 := by simpa [CAN] using h3
  simp [write_packet, expect_byte, read_byte_cons, pushEvent, write_byte,
    hb, hne, e1, e2, e3, ACK, NAK, CAN]

/-- Each checksum-corrupted frame consumes exactly one attempt of the
receiver's retry loop and draws one NAK. -/
theorem rxTries_skip_bads (bads : List (List Nat × Nat)) :
    ∀ (k p : Nat) (st : Bool) (rest out : List Nat) (ev : List Progress),
      bads.length ≤ k →
      (∀ x ∈ bads, (x.1).length = 128 ∧ get_checksum x.1 ≠ x.2) →
      rxTries k ⟨p, st, badWire p bads ++ rest, out, ev⟩ =
        rxTries (k - bads.length)
          ⟨p, (if bads = [] then st else true), rest,
           out ++ List.replicate bads.length NAK,
           ev ++ (if bads = [] then []
                  else if st then [] else [Progress.Started])⟩ := by
  induction bads with
  | nil =>
      intro k p st rest out ev hk hb
      simp [badWire]
  | cons bc bads ih =>
      obtain ⟨d, c⟩ := bc
      intro k p st rest out ev hk hb
      match k with
      | 0 => simp only [List.length_cons] at hk; omega
      | k' + 1 =>
          have hd : d.length = 128 := by simpa using (hb (d, c) (by simp)).1
          have hc : get_checksum d ≠ c := by simpa using (hb (d, c) (by simp)).2
          simp only [badWire, List.append_assoc, List.cons_append]
          simp only [rxTries,
            read_packet_badck p st d c (badWire p bads ++ rest) out ev hd hc]
          rw [ih k' p true rest (out ++ [NAK])
            (ev ++ (if st then [] else [Progress.Started]))
            (by simp only [List.length_cons] at hk; omega)
            (fun x hx => hb x (by simp [hx]))]
          congr 1
          · simp only [List.length_cons]; omega
          · cases st <;>
              simp [List.replicate_succ, List.append_assoc, ite_self]

/-- Each NAK response consumes exactly one attempt of the transmitter's
retry loop and causes one full retransmission of the same frame. -/
theorem txTries_skip_naks (m : Nat) :
    ∀ (k p : Nat) (buf rest out : List Nat) (ev : List Progress),
      m ≤ k → buf.length = 128 →
      txTries k buf ⟨p, true, List.replicate m NAK ++ rest, out, ev⟩ =
        txTries (k - m) buf
          ⟨p, true, rest,
           out ++ (List.replicate m (frameBytes p buf)).flatten, ev⟩ := by
  induction m with
  | zero =>
      intro k p buf rest out ev hk hb
      simp
  | succ m ih =>
      intro k p buf rest out ev hk hb
      match k with
      | 0 => omega
      | k' + 1 =>
          simp only [List.replicate_succ, List.cons_append]
          simp only [txTries, write_packet_nak, hb]
          rw [ih k' p buf rest
            (out ++ SOH :: p :: not8 p :: (buf ++ [get_checksum buf]))
            ev (by omega) hb]
          congr 1
          · omega
          · simp [frameBytes, List.append_assoc]

end Xmodem

namespace Xmodem

theorem txTries_step_interrupted (k : Nat) (buf : List Nat) (s s' : XState)
    (h : write_packet buf s = (Except.error ErrKind.interrupted, s')) :
    txTries (k + 1) buf s = txTries k buf s' := by
  simp [txTries, h]

theorem txTries_step_ok (k n : Nat) (buf : List Nat) (s s' : XState)
    (h : write_packet buf s = (Except.ok n, s')) :
    txTries (k + 1) buf s = (Except.ok n, s') := by
  simp [txTries, h]

/-- C6: each packet exchange is attempted at most 10 times in both roles;
an Interrupted-class fault (corrupt checksum / NAK response) consumes one
attempt and loops, any other fault aborts the whole transfer immediately,
and exhausting all 10 attempts aborts with a broken-pipe fault — even if
a good exchange would follow. -/
theorem claim_c6_retry_policy :
    (∀ (bads : List (List Nat × Nat)) (rest : List Nat) (fuel : Nat),
      1 ≤ fuel → bads.length = 10 →
      (∀ x ∈ bads, (x.1).length = 128 ∧ get_checksum x.1 ≠ x.2) →
      receive_with_progress fuel (badWire 1 bads ++ rest) =
        some (Except.error ErrKind.brokenPipe,
          ⟨1, true, rest, NAK :: List.replicate 10 NAK, [Progress.Started]⟩,
          [])) ∧
    (∀ (bads : List (List Nat × Nat)) (c rest : List Nat) (fuel : Nat),
      2 ≤ fuel → bads.length = 9 →
      (∀ x ∈ bads, (x.1).length = 128 ∧ get_checksum x.1 ≠ x.2) →
      c.length ≤ 128 →
      receive_with_progress fuel
          (badWire 1 bads ++ (frameOf 1 c ++ (EOT :: EOT :: rest))) =
        some (Except.ok 128,
          ⟨2, true, rest,
           NAK :: (List.replicate 9 NAK ++ [ACK, NAK, ACK]),
           [Progress.Started, Progress.Packet 1]⟩,
          padChunk c)) ∧
    (∀ (g nb : Nat) (rest : List Nat) (fuel : Nat),
      1 ≤ fuel → g ≠ SOH → g ≠ EOT → g ≠ CAN → nb ≠ CAN →
      receive_with_progress fuel (g :: nb :: rest) =
        some (Except.error ErrKind.invalidData,
          ⟨1, false, rest, [NAK, NAK], []⟩, [])) ∧
    (∀ (P rest : List Nat) (fuel : Nat),
      1 ≤ fuel → P ≠ [] →
      transmit_with_progress fuel P (NAK :: (List.replicate 10 NAK ++ rest)) =
        some (Except.error ErrKind.brokenPipe,
          ⟨1, true, rest,
           (List.replicate 10 (frameBytes 1 (padChunk (P.take 128)))).flatten,
           [Progress.Waiting, Progress.Started]⟩)) ∧
    (∀ (P rest : List Nat) (fuel : Nat),
      2 ≤ fuel → P ≠ [] → P.length ≤ 128 →
      transmit_with_progress fuel P
          (NAK :: (List.replicate 9 NAK ++ (ACK :: NAK :: ACK :: rest))) =
        some (Except.ok P.length,
          ⟨2, true, rest,
           (List.replicate 10 (frameBytes 1 (padChunk P))).flatten ++
             [EOT, EOT],
           [Progress.Waiting, Progress.Started, Progress.Packet 2]⟩)) ∧
    (∀ (P : List Nat) (g : Nat) (rest : List Nat) (fuel : Nat),
      1 ≤ fuel → P ≠ [] → g ≠ ACK → g ≠ NAK → g ≠ CAN →
      transmit_with_progress fuel P (NAK :: g :: rest) =
        some (Except.error ErrKind.invalidData,
          ⟨1, true, rest, frameBytes 1 (padChunk (P.take 128)),
           [Progress.Waiting, Progress.Started]⟩)) := by
  refine ⟨?_, ?_, ?_, ?_, ?_, ?_⟩
  · -- receiver exhaustion
    intro bads rest fuel hfuel h10 hb
    have hne : bads ≠ [] := by intro h; rw [h] at h10; simp at h10
    match fuel with
    | 0 => omega
    | f + 1 =>
        simp only [receive_with_progress, write_byte, List.nil_append, rxLoop]
        rw [rxTries_skip_bads bads 10 1 false rest [NAK] [] (by omega) hb, h10]
        simp [rxTries, hne]
  · -- receiver: 9 corrupt attempts, then the good frame is accepted
    intro bads c rest fuel hfuel h9 hb hc
    have hne : bads ≠ [] := by intro h; rw [h] at h9; simp at h9
    match fuel with
    | 0 => omega
    | 1 => omega
    | f + 2 =>
        simp only [receive_with_progress, write_byte, List.nil_append, rxLoop]
        rw [rxTries_skip_bads bads 10 1 false
          (frameOf 1 c ++ (EOT :: EOT :: rest)) [NAK] [] (by omega) hb, h9]
        simp [rxTries, rxLoop, read_packet_good, hc, read_packet_eot, hne]
  · -- receiver: invalid-data frame aborts with attempts remaining
    intro g nb rest fuel hfuel h1 h2 h3 h4
    match fuel with
    | 0 => omega
    | f + 1 =>
        simp only [receive_with_progress, write_byte, List.nil_append, rxLoop]
        simp only [rxTries,
          read_packet_garbage_other 1 false g nb rest [NAK] [] h1 h2 h3 h4]
        simp
  · -- transmitter exhaustion
    intro P rest fuel hfuel hP
    have h0 : 0 < P.length := List.length_pos.mpr hP
    have hn : ¬ (min 128 P.length = 0) := by omega
    have hbuf : P.take 128 ++ List.replicate (128 - min 128 P.length) 0
        = padChunk (P.take 128) := by
      unfold padChunk; rw [List.length_take]
    have hb128 : (padChunk (P.take 128)).length = 128 :=
      padChunk_length (by rw [List.length_take]; omega)
    match fuel with
    | 0 => omega
    | f + 1 =>
        simp only [transmit_with_progress, txLoop]
        rw [if_neg hn, hbuf]
        simp only [txTries, write_packet_nak_fresh, write_packet_nak, hb128,
          List.replicate_succ, List.cons_append]
        simp [frameBytes, List.append_assoc]
  · -- transmitter: 9 NAKs then ACK, single-packet payload
    intro P rest fuel hfuel hP hlen
    have h0 : 0 < P.length := List.length_pos.mpr hP
    have hn : ¬ (min 128 P.length = 0) := by omega
    have htake : P.take 128 = P := List.take_of_length_le hlen
    have hbuf : P.take 128 ++ List.replicate (128 - min 128 P.length) 0
        = padChunk P := by
      unfold padChunk; rw [htake, min_eq_right hlen]
    have hb128 : (padChunk P).length = 128 := padChunk_length hlen
    have hdrop : P.drop 128 = [] := List.drop_eq_nil_of_le hlen
    match fuel with
    | 0 => omega
    | 1 => omega
    | f + 2 =>
        simp only [transmit_with_progress, txLoop]
        rw [if_neg hn, hbuf]
        rw [show List.replicate 9 NAK ++ (ACK :: NAK :: ACK :: rest)
            = NAK :: (List.replicate 8 NAK ++ (ACK :: NAK :: ACK :: rest))
            from rfl]
        rw [txTries_step_interrupted 9 _ _ _
          (write_packet_nak_fresh 1 (padChunk P)
            (List.replicate 8 NAK ++ (ACK :: NAK :: ACK :: rest)) [] [] hb128)]
        rw [txTries_skip_naks 8 9 1 (padChunk P) (ACK :: NAK :: ACK :: rest)
          ([] ++ SOH :: 1 :: not8 1 ::
            (padChunk P ++ [get_checksum (padChunk P)]))
          ([] ++ [Progress.Waiting, Progress.Started]) (by omega) hb128]
        rw [txTries_step_ok 0 128 _ _ _
          (write_packet_data_started 1 (padChunk P) (NAK :: ACK :: rest) _ _
            hb128)]
        rw [hdrop]
        simp [txLoop, write_packet_eot_started, frameBytes,
          min_eq_right hlen, List.append_assoc, List.replicate_succ]
  · -- transmitter: invalid response aborts with attempts remaining
    intro P g rest fuel hfuel hP h1 h2 h3
    have h0 : 0 < P.length := List.length_pos.mpr hP
    have hn : ¬ (min 128 P.length = 0) := by omega
    have hbuf : P.take 128 ++ List.replicate (128 - min 128 P.length) 0
        = padChunk (P.take 128) := by
      unfold padChunk; rw [List.length_take]
    have hb128 : (padChunk (P.take 128)).length = 128 :=
      padChunk_length (by rw [List.length_take]; omega)
    match fuel with
    | 0 => omega
    | f + 1 =>
        simp only [transmit_with_progress, txLoop]
        rw [if_neg hn, hbuf]
        simp only [txTries,
          write_packet_bad_resp_fresh 1 g (padChunk (P.take 128)) rest [] []
            hb128 h1 h2 h3]
        simp [frameBytes]


end Xmodem

namespace Xmodem

set_option maxRecDepth 100000 in
theorem claim_c6_retry_policy_witness :
    ((List.replicate 10 (List.replicate 128 (0 : Nat), (1 : Nat))).length = 10 ∧
     (∀ x ∈ List.replicate 10 (List.replicate 128 (0 : Nat), (1 : Nat)),
        (x.1).length = 128 ∧ get_checksum x.1 ≠ x.2) ∧
     (List.replicate 9 (List.replicate 128 (0 : Nat), (1 : Nat))).length = 9 ∧
     ([7] : List Nat).length ≤ 128 ∧
     (99 : Nat) ≠ SOH ∧ (99 : Nat) ≠ EOT ∧ (99 : Nat) ≠ CAN ∧
     (0 : Nat) ≠ CAN ∧ ([42] : List Nat) ≠ [] ∧
     ([42] : List Nat).length ≤ 128 ∧
     (99 : Nat) ≠ ACK ∧ (99 : Nat) ≠ NAK) ∧
    receive_with_progress 1
        (badWire 1 (List.replicate 10 (List.replicate 128 0, 1)) ++ []) =
      some (Except.error ErrKind.brokenPipe,
        ⟨1, true, [], NAK :: List.replicate 10 NAK, [Progress.Started]⟩, []) ∧
    receive_with_progress 2
        (badWire 1 (List.replicate 9 (List.replicate 128 0, 1)) ++
          (frameOf 1 [7] ++ (EOT :: EOT :: []))) =
      some (Except.ok 128,
        ⟨2, true, [],
         NAK :: (List.replicate 9 NAK ++ [ACK, NAK, ACK]),
         [Progress.Started, Progress.Packet 1]⟩,
        padChunk [7]) ∧
    receive_with_progress 1 (99 :: 0 :: []) =
      some (Except.error ErrKind.invalidData,
        ⟨1, false, [], [NAK, NAK], []⟩, []) ∧
    transmit_with_progress 1 [42] (NAK :: (List.replicate 10 NAK ++ [])) =
      some (Except.error ErrKind.brokenPipe,
        ⟨1, true, [],
         (List.replicate 10 (frameBytes 1 (padChunk (([42] : List Nat).take 128)))).flatten,
         [Progress.Waiting, Progress.Started]⟩) ∧
    transmit_with_progress 2 [42]
        (NAK :: (List.replicate 9 NAK ++ (ACK :: NAK :: ACK :: []))) =
      some (Except.ok ([42] : List Nat).length,
        ⟨2, true, [],
         (List.replicate 10 (frameBytes 1 (padChunk [42]))).flatten ++
           [EOT, EOT],
         [Progress.Waiting, Progress.Started, Progress.Packet 2]⟩) ∧
    transmit_with_progress 1 [42] (NAK :: 99 :: []) =
      some (Except.error ErrKind.invalidData,
        ⟨1, true, [], frameBytes 1 (padChunk (([42] : List Nat).take 128)),
         [Progress.Waiting, Progress.Started]⟩) :=
  ⟨⟨by decide, by decide, by decide, by decide, by decide, by decide,
    by decide, by decide, by decide, by decide, by decide, by decide⟩,
   (claim_c6_retry_policy.1 (List.replicate 10 (List.replicate 128 0, 1)) []
     1 le_rfl (by decide) (by decide)),
   (claim_c6_retry_policy.2.1 (List.replicate 9 (List.replicate 128 0, 1))
     [7] [] 2 le_rfl (by decide) (by decide) (by decide)),
   (claim_c6_retry_policy.2.2.1 99 0 [] 1 le_rfl (by decide) (by decide)
     (by decide) (by decide)),
   (claim_c6_retry_policy.2.2.2.1 [42] [] 1 le_rfl (by decide)),
   (claim_c6_retry_policy.2.2.2.2.1 [42] [] 2 le_rfl (by decide) (by decide)),
   (claim_c6_retry_policy.2.2.2.2.2 [42] 99 [] 1 le_rfl (by decide)
     (by decide) (by decide) (by decide))⟩

end Xmodem

namespace Xmodem

theorem read_exact_ok_length (n : Nat) (s s' : XState) (d : List Nat)
    (h : read_exact n s = (Except.ok d, s')) : d.length = n := by
  unfold read_exact at h
  split at h
  · simp only [Prod.mk.injEq, Except.ok.injEq] at h
    obtain ⟨hd, -⟩ := h
    subst hd
    rw [List.length_take]
    omega
  · simp at h

/-- On success `read_packet` returns only 0 (EOT handshake done) or 128
(one full packet, with exactly 128 data bytes stored). -/
theorem read_packet_sizes (bufLen : Nat) (s s' : XState) (n : Nat)
    (d : List Nat) (h : read_packet bufLen s = (Except.ok (n, d), s')) :
    n = 0 ∨ (n = 128 ∧ d.length = 128) := by
  simp only [read_packet] at h
  repeat' split at h
  all_goals
    first
      | (simp_all; done)
      | (simp only [Prod.mk.injEq, Except.ok.injEq] at h
         obtain ⟨⟨hn, hd⟩, -⟩ := h
         subst hn
         subst hd
         exact Or.inr ⟨rfl, read_exact_ok_length _ _ _ _ (by assumption)⟩)

end Xmodem

namespace Xmodem

theorem rxTries_sizes (k : Nat) :
    ∀ (s s' : XState) (n : Nat) (d : List Nat),
      rxTries k s = (Except.ok (n, d), s') →
      n = 0 ∨ (n = 128 ∧ d.length = 128) := by
  induction k with
  | zero =>
      intro s s' n d h
      simp [rxTries] at h
  | succ k ih =>
      intro s s' n d h
      simp only [rxTries] at h
      rcases hrp : read_packet 128 s with ⟨e | r, s1⟩ <;> rw [hrp] at h
      · cases e <;> simp_all
        exact ih s1 s' n d h
      · simp only [Prod.mk.injEq, Except.ok.injEq] at h
        obtain ⟨hr, -⟩ := h
        subst hr
        exact read_packet_sizes 128 s s1 n d hrp

theorem rxLoop_sizes (fuel : Nat) :
    ∀ (sink : List Nat) (received : Nat) (s : XState) (r : Nat) (s' : XState)
      (sink' : List Nat),
      rxLoop fuel sink received s = some (Except.ok r, s', sink') →
      ∃ m, r = received + 128 * m ∧ sink'.length = sink.length + 128 * m := by
  induction fuel with
  | zero =>
      intro sink received s r s' sink' h
      simp [rxLoop] at h
  | succ fuel ih =>
      intro sink received s r s' sink' h
      simp only [rxLoop] at h
      rcases hrt : rxTries 10 s with ⟨e | ⟨n, d⟩, s1⟩ <;> rw [hrt] at h
      · simp at h
      · rcases rxTries_sizes 10 s s1 n d hrt with h0 | ⟨h128, hd⟩
        · subst h0
          simp only [Option.some.injEq, Prod.mk.injEq, Except.ok.injEq] at h
          obtain ⟨hr, -, hsink⟩ := h
          exact ⟨0, by omega, by rw [← hsink]; omega⟩
        · subst h128
          obtain ⟨m, hm1, hm2⟩ :=
            ih (sink ++ d) (received + 128) s1 r s' sink' (by simpa using h)
          refine ⟨m + 1, by omega, ?_⟩
          rw [hm2, List.length_append, hd]
          ring

/-- C10: `read_packet` succeeds only with size 0 or 128 (in the latter case
storing exactly 128 bytes), so `receive_with_progress` appends exactly 128
bytes to the sink per accepted packet and its returned byte count is a
multiple of 128 equal to the sink's length. -/
theorem claim_c10_sizes :
    (∀ (bufLen : Nat) (s s' : XState) (n : Nat) (d : List Nat),
      read_packet bufLen s = (Except.ok (n, d), s') →
      n = 0 ∨ (n = 128 ∧ d.length = 128)) ∧
    (∀ (fuel : Nat) (input : List Nat) (r : Nat) (s' : XState)
       (sink : List Nat),
      receive_with_progress fuel input = some (Except.ok r, s', sink) →
      128 ∣ r ∧ sink.length = r) := by
  refine ⟨read_packet_sizes, ?_⟩
  intro fuel input r s' sink h
  unfold receive_with_progress at h
  obtain ⟨m, hm1, hm2⟩ := rxLoop_sizes fuel [] 0 _ r s' sink h
  subst hm1
  exact ⟨⟨m, by ring⟩, by simpa using hm2⟩

set_option maxRecDepth 40000 in
theorem claim_c10_sizes_witness :
    (read_packet 128 ⟨1, true, frameOf 1 [7], [], []⟩ =
      (Except.ok (128, padChunk [7]),
       ⟨2, true, [], [ACK], [Progress.Packet 1]⟩)) ∧
    ((128 : Nat) = 0 ∨ ((128 : Nat) = 128 ∧ (padChunk ([7] : List Nat)).length = 128)) ∧
    (receive_with_progress 2 (frameOf 1 [7] ++ EOT :: EOT :: []) =
      some (Except.ok 128,
        ⟨2, true, [], [NAK, ACK, NAK, ACK],
         [Progress.Started, Progress.Packet 1]⟩,
        padChunk [7])) ∧
    (128 ∣ (128 : Nat) ∧ (padChunk ([7] : List Nat)).length = 128) :=
  ⟨by decide, claim_c10_sizes.1 128 ⟨1, true, frameOf 1 [7], [], []⟩
     ⟨2, true, [], [ACK], [Progress.Packet 1]⟩ 128 (padChunk [7]) (by decide),
   by decide,
   claim_c10_sizes.2 2 (frameOf 1 [7] ++ EOT :: EOT :: []) 128
     ⟨2, true, [], [NAK, ACK, NAK, ACK],
      [Progress.Started, Progress.Packet 1]⟩ (padChunk [7]) (by decide)⟩

end Xmodem
